import Mathlib

/-!
# webSerial: the `Servo` motion interpolator and the lines sent to the Arduino

Shallow embedding of the `Servo` class of
`examples/ServoExamples/p5examples/webSerial_mouseXY_to_Servo_Class/sketch.js`
together with the p5.js helpers it calls (`constrain`, `min`, `lerp`), and of the
functions of the other sketches that compute the values sent to the Arduino, build
the line `value1,value2` and a newline, and decide whether it is written
(`setup`, `draw`, `sendDataToArduino`, `updateServoValue`, `getWaveAngle`,
`keyPressed`).

JavaScript numbers are modelled by `JsNum`: a finite value is an exact rational
(binary rounding of doubles is not modelled, and zero is unsigned), and the three
special values `Infinity`, `-Infinity` and `NaN` are kept, because the code
divides by `moveSpeed` without a guard. The statements below are about ranges,
order, fields that a call leaves alone and values that are computed without
rounding; exact equations between interpolated or mapped values hold of the
rationals and not of the rounded doubles, and serve only as steps towards such
statements.
-/

namespace WebSerial

/-! ## JavaScript numbers -/

/-- A JavaScript number: a finite value, `Infinity`, `-Infinity` or `NaN`. -/
inductive JsNum where
  | fin (q : ℚ)
  | posInf
  | negInf
  | nan
  deriving DecidableEq

namespace JsNum

/-- Unary minus. -/
def neg : JsNum → JsNum
  | fin a => fin (-a)
  | posInf => negInf
  | negInf => posInf
  | nan => nan

/-- The `+` operator on numbers. -/
def add : JsNum → JsNum → JsNum
  | nan, _ => nan
  | _, nan => nan
  | fin a, fin b => fin (a + b)
  | posInf, negInf => nan
  | negInf, posInf => nan
  | posInf, _ => posInf
  | negInf, _ => negInf
  | fin _, posInf => posInf
  | fin _, negInf => negInf

/-- The `-` operator on numbers. -/
def sub (a b : JsNum) : JsNum := add a (neg b)

/-- Sign of an infinite product or quotient: `pos` tells whether it is positive. -/
def signedInf (pos : Bool) : JsNum := if pos then posInf else negInf

/-- The `*` operator on numbers. -/
def mul : JsNum → JsNum → JsNum
  | nan, _ => nan
  | _, nan => nan
  | fin a, fin b => fin (a * b)
  | fin a, posInf => if a = 0 then nan else signedInf (decide (0 < a))
  | fin a, negInf => if a = 0 then nan else signedInf (decide (a < 0))
  | posInf, fin b => if b = 0 then nan else signedInf (decide (0 < b))
  | negInf, fin b => if b = 0 then nan else signedInf (decide (b < 0))
  | posInf, posInf => posInf
  | negInf, negInf => posInf
  | posInf, negInf => negInf
  | negInf, posInf => negInf

/-- The `/` operator on numbers. A finite non-zero value over zero is an infinity,
zero over zero is `NaN`. -/
def div : JsNum → JsNum → JsNum
  | nan, _ => nan
  | _, nan => nan
  | fin a, fin b =>
      if b = 0 then (if a = 0 then nan else signedInf (decide (0 < a)))
      else fin (a / b)
  | fin _, posInf => fin 0
  | fin _, negInf => fin 0
  | posInf, fin b => signedInf (decide (0 ≤ b))
  | negInf, fin b => signedInf (decide (b < 0))
  | posInf, posInf => nan
  | posInf, negInf => nan
  | negInf, posInf => nan
  | negInf, negInf => nan

/-- The comparison `a <= b` of two numbers; false as soon as one is `NaN`. -/
def le : JsNum → JsNum → Bool
  | nan, _ => false
  | _, nan => false
  | fin a, fin b => decide (a ≤ b)
  | negInf, _ => true
  | _, posInf => true
  | posInf, _ => false
  | fin _, negInf => false

/-- The comparison `a >= b`. -/
def ge (a b : JsNum) : Bool := le b a

/-- Strict equality `a === b`; `NaN` is equal to nothing, itself included. -/
def strictEq : JsNum → JsNum → Bool
  | nan, _ => false
  | _, nan => false
  | fin a, fin b => decide (a = b)
  | posInf, posInf => true
  | negInf, negInf => true
  | _, _ => false

/-- Strict inequality `a !== b`. -/
def strictNe (a b : JsNum) : Bool := !strictEq a b

/-- The function `Math.min` on two arguments: `NaN` if either is `NaN`. -/
def mathMin : JsNum → JsNum → JsNum
  | nan, _ => nan
  | _, nan => nan
  | a, b => if le a b then a else b

/-- The function `Math.max` on two arguments: `NaN` if either is `NaN`. -/
def mathMax : JsNum → JsNum → JsNum
  | nan, _ => nan
  | _, nan => nan
  | a, b => if le a b then b else a

end JsNum

open JsNum

/-! ## p5.js helpers used by the class -/

/-- The p5.js function `constrain(n, low, high)`, which is
`Math.max(Math.min(n, high), low)`. -/
def constrain (n low high : JsNum) : JsNum := mathMax (mathMin n high) low

/-- The p5.js function `min(a, b)` on two numbers, which is `Math.min`. -/
def min (a b : JsNum) : JsNum := mathMin a b

/-- The p5.js function `lerp(start, stop, amt)`, which is
`amt * (stop - start) + start`. -/
def lerp (start stop amt : JsNum) : JsNum := add (mul amt (sub stop start)) start

/-! ## The `Servo` class -/

/-- The fields of a `Servo` object. -/
structure Servo where
  currentAngle : JsNum
  targetAngle : JsNum
  moveSpeed : JsNum
  moveStartTime : JsNum
  moveStartAngle : JsNum
  isMoving : Bool
  deriving DecidableEq

namespace Servo

/-- The constructor `new Servo(startAngle, moveSpeed)`. -/
def constructor (startAngle moveSpeed : JsNum) : Servo :=
  { currentAngle := startAngle
    targetAngle := startAngle
    moveSpeed := moveSpeed
    moveStartTime := fin 0
    moveStartAngle := startAngle
    isMoving := false }

/-- The method `setTarget(newTarget)`; `millis` is the value `millis()` returns
during the call. -/
def setTarget (s : Servo) (millis : JsNum) (newTarget : JsNum) : Servo :=
  let newTarget := constrain newTarget (fin 0) (fin 180)
  if strictNe newTarget s.currentAngle then
    { s with
      targetAngle := newTarget
      moveStartAngle := s.currentAngle
      moveStartTime := millis
      isMoving := true }
  else s

/-- The method `update()`; `millis` is the value `millis()` returns during the
call. -/
def update (s : Servo) (millis : JsNum) : Servo :=
  if s.isMoving then
    let elapsed := sub millis s.moveStartTime
    let progress := min (div elapsed s.moveSpeed) (fin 1)
    let s1 := { s with currentAngle := lerp s.moveStartAngle s.targetAngle progress }
    if ge progress (fin 1) then
      { s1 with isMoving := false, currentAngle := s1.targetAngle }
    else s1
  else s

end Servo

/-! ## Sequences of method calls -/

/-- One method call made on a `Servo` by the sketch: `setTarget(newTarget)` or
`update()`. -/
inductive Call where
  | setTarget (newTarget : JsNum)
  | update
  deriving DecidableEq

/-- Performs one call; the first component is the value of `millis()` during it. -/
def Servo.step (s : Servo) (c : ℚ × Call) : Servo :=
  match c.2 with
  | Call.setTarget newTarget => s.setTarget (fin c.1) newTarget
  | Call.update => s.update (fin c.1)

/-- Performs a sequence of timestamped calls, first to last. -/
def Servo.run (s : Servo) (calls : List (ℚ × Call)) : Servo :=
  calls.foldl Servo.step s

/-- The test `0 <= x && x <= 180`: the value lies in the servo range. -/
def inRange (x : JsNum) : Bool := le (fin 0) x && le x (fin 180)

/-- Invariant of a servo built with an angle in `[0,180]` and a positive move time:
the three angles are finite and in `[0,180]`, the move time is finite and
positive, and a segment under way started at a finite time not later than `lo`. -/
def RangeInv (s : Servo) (lo : ℚ) : Prop :=
  ∃ c ta d t0 sa : ℚ,
    s.currentAngle = fin c ∧ s.targetAngle = fin ta ∧ s.moveSpeed = fin d ∧
    s.moveStartTime = fin t0 ∧ s.moveStartAngle = fin sa ∧
    0 < d ∧ (0 ≤ c ∧ c ≤ 180) ∧ (0 ≤ ta ∧ ta ≤ 180) ∧ (0 ≤ sa ∧ sa ≤ 180) ∧
    (s.isMoving = true → t0 ≤ lo)

/-- The timestamps of a sequence of calls never decrease. -/
def nonDecreasing (calls : List (ℚ × Call)) : Prop :=
  List.Pairwise (fun a b => a.1 ≤ b.1) calls

/-- No call of the sequence passes `NaN` as a target. -/
def targetsAreNumbers (calls : List (ℚ × Call)) : Prop :=
  ∀ c ∈ calls, c.2 ≠ Call.setTarget nan

/-! ## More of JavaScript and p5.js: comparison, rounding, `map`, number to text -/

/-- The comparison `a < b` of two numbers; false as soon as one is `NaN`. -/
def JsNum.lt : JsNum → JsNum → Bool
  | nan, _ => false
  | _, nan => false
  | fin a, fin b => decide (a < b)
  | posInf, _ => false
  | _, negInf => false
  | negInf, _ => true
  | fin _, posInf => true

/-- The comparison `a > b`. -/
def JsNum.gt (a b : JsNum) : Bool := JsNum.lt b a

/-- The function `Math.round`: the nearest integer, a half going to the next
integer up, which is `floor(x + 1/2)`. -/
def JsNum.mathRound : JsNum → JsNum
  | fin q => fin (⌊q + 1 / 2⌋ : ℤ)
  | posInf => posInf
  | negInf => negInf
  | nan => nan

/-- The p5.js function `round(n)` with one argument, which is `Math.round(n)`. -/
def round (n : JsNum) : JsNum := mathRound n

/-- The p5.js function `max(a, b)` on two numbers, which is `Math.max`. -/
def max (a b : JsNum) : JsNum := mathMax a b

/-- The p5.js function `map(n, start1, stop1, start2, stop2)`, which is
`(n - start1) / (stop1 - start1) * (stop2 - start2) + start2`. -/
def map (n start1 stop1 start2 stop2 : JsNum) : JsNum :=
  add (mul (div (sub n start1) (sub stop1 start1)) (sub stop2 start2)) start2

/-- The significant digits of a natural number, as a number: its decimal numeral
without the trailing zeros. The first argument bounds the number of steps. -/
def stripZeros : ℕ → ℕ → ℕ
  | 0, m => m
  | fuel + 1, m => if m ≠ 0 ∧ m % 10 = 0 then stripZeros fuel (m / 10) else m

/-- The exponent notation of JavaScript for the significant digits `s` and the
decimal exponent `e`: `1e+21`, `1.25e+30`. -/
def exponentForm (s e : ℕ) : String :=
  match (Nat.repr s).data with
  | [] => "e+" ++ Nat.repr e
  | [d] => String.mk [d] ++ "e+" ++ Nat.repr e
  | d :: ds => String.mk [d] ++ "." ++ String.mk ds ++ "e+" ++ Nat.repr e

/-- The text JavaScript gives to a natural number when it is converted to a
string: the decimal numeral below `10^21`, exponent notation from there on. The
result is `none` where the digits printed for a double depend on its binary
rounding, which is not modelled: above `2^53` with 15 significant digits or more. -/
def naturalToString (m : ℕ) : Option String :=
  if m < 10 ^ 21 then
    if m ≤ 2 ^ 53 ∨ stripZeros m m < 10 ^ 15 then some (Nat.repr m) else none
  else
    if stripZeros m m < 10 ^ 15 then
      some (exponentForm (stripZeros m m) ((Nat.repr m).length - 1))
    else none

/-- The number of decimal places of a fraction with the denominator `den`: the least
`f`, from `f` on, with `den` dividing `10^f`. The first argument bounds the number of
steps; the result is `none` when there is no such `f` within the bound. -/
def decimalPlaces (den : ℕ) : ℕ → ℕ → Option ℕ
  | 0, _ => none
  | fuel + 1, f => if 10 ^ f % den = 0 then some f else decimalPlaces den fuel (f + 1)

/-- Puts zeros in front of a numeral up to the width given. -/
def padZeros (width : ℕ) (t : String) : String :=
  String.mk (List.replicate (width - t.length) '0') ++ t

/-- The text JavaScript gives to the absolute value of a number that is not an
integer: the integer part, a point and the decimal places. The result is `none`
where the digits printed for a double depend on its binary rounding, which is not
modelled (15 significant digits or more, or no finite decimal expansion), and
below `10^-6`, where JavaScript uses exponent notation. -/
def fractionToString (q : ℚ) : Option String :=
  match decimalPlaces q.den (q.den + 1) 0 with
  | none => none
  | some f =>
      let m := q.num.natAbs * 10 ^ f / q.den
      if m < 10 ^ 15 ∧ 10 ^ f ≤ m * 10 ^ 6 then
        some (Nat.repr (m / 10 ^ f) ++ "." ++ padZeros f (Nat.repr (m % 10 ^ f)))
      else none

/-- The text JavaScript gives to a number when it is concatenated to a string: see
`naturalToString` for the integers and `fractionToString` for the other finite
values; a negative number has a minus sign in front. -/
def numberToString : JsNum → Option String
  | nan => some "NaN"
  | posInf => some "Infinity"
  | negInf => some "-Infinity"
  | fin q =>
      if q.den = 1 then
        if q.num < 0 then (naturalToString q.num.natAbs).map (fun t => "-" ++ t)
        else naturalToString q.num.natAbs
      else
        if q.num < 0 then (fractionToString q).map (fun t => "-" ++ t)
        else fractionToString q

/-- The expression `v1 + "," + v2 + "\n"` on two numbers. -/
def csvLine (v1 v2 : JsNum) : Option String :=
  match numberToString v1, numberToString v2 with
  | some t1, some t2 => some (t1 ++ "," ++ t2 ++ "\n")
  | _, _ => none

/-- The outcome of one call of `draw`: the variables of the sketch after it and
the arguments of the calls of `port.write` it made, in order. -/
structure Tick (σ : Type) where
  state : σ
  written : List (Option String)

/-! ## Reading a line back (used to state the round trip) -/

/-- The value of a decimal digit character. -/
def digitValue (c : Char) : Option ℕ :=
  if '0'.toNat ≤ c.toNat ∧ c.toNat ≤ '9'.toNat then some (c.toNat - '0'.toNat) else none

/-- Reads a run of decimal digits after the value `acc` read so far. -/
def parseDigits : List Char → ℕ → Option ℕ
  | [], acc => some acc
  | c :: cs, acc =>
      match digitValue c with
      | some d => parseDigits cs (10 * acc + d)
      | none => none

/-- Parses a base-10 natural number: a non-empty run of decimal digits. -/
def parseDecimal (l : List Char) : Option ℕ :=
  match l with
  | [] => none
  | _ :: _ => parseDigits l 0

/-- Splits a text on the character `,`. -/
def splitOnComma : List Char → List (List Char)
  | [] => [[]]
  | c :: cs =>
      if c = ',' then [] :: splitOnComma cs
      else
        match splitOnComma cs with
        | [] => [[c]]
        | field :: fields => (c :: field) :: fields

/-- Removes one trailing newline character, if there is one. -/
def dropTrailingNewline (l : List Char) : List Char :=
  match l.reverse with
  | '\n' :: rest => rest.reverse
  | _ => l

/-- Decodes a line: drops the trailing newline, splits on `,` and parses every
field as a base-10 natural number. -/
def decodeLine (line : String) : List (Option ℕ) :=
  (splitOnComma (dropTrailingNewline line.data)).map parseDecimal

/-! ## The `Servo` class sketch: `getCurrentAngle`, `sendDataToArduino`, `draw` -/

/-- The method `getCurrentAngle()`. -/
def Servo.getCurrentAngle (s : Servo) : JsNum := round s.currentAngle

namespace ServoClass

/-- The global variables of the sketch that `draw` reads or writes. -/
structure Sketch where
  servo1 : Servo
  servo1Speed : JsNum
  servo2 : Servo
  servo2Speed : JsNum
  deriving DecidableEq

/-- The function `sendDataToArduino()`: the text passed to `port.write`. -/
def sendDataToArduino (k : Sketch) : Option String :=
  csvLine k.servo1.getCurrentAngle k.servo2.getCurrentAngle

/-- The function `draw()`; `opened` is what `port.opened()` returns, `millis1` and
`millis2` what `millis()` returns in the two calls of `update`. -/
def draw (k : Sketch) (opened : Bool) (millis1 millis2 : JsNum) : Tick Sketch :=
  if opened then
    let k1 := { k with servo1 := { k.servo1 with moveSpeed := k.servo1Speed } }
    let k2 := { k1 with servo2 := { k1.servo2 with moveSpeed := k1.servo2Speed } }
    let k3 := { k2 with servo1 := k2.servo1.update millis1 }
    let k4 := { k3 with servo2 := k3.servo2.update millis2 }
    { state := k4, written := [sendDataToArduino k4] }
  else { state := k, written := [] }

end ServoClass

/-! ## The template sketch `webSerial_baseFile` and the slider sketch -/

namespace BaseFile

/-- The global variables `ardVal1` and `ardVal2`; `none` is `undefined`. -/
structure Sketch where
  ardVal1 : Option JsNum
  ardVal2 : Option JsNum
  deriving DecidableEq

/-- The function `sendDataToArduino()`: the text `ardVal1 + "," + ardVal2 + "\n"`
passed to `port.write`. -/
def sendDataToArduino (ardVal1 ardVal2 : JsNum) : Option String :=
  csvLine ardVal1 ardVal2

/-- The function `draw()`; `opened` is what `port.opened()` returns. -/
def draw (k : Sketch) (opened : Bool) : Tick Sketch :=
  if opened then
    { state := { ardVal1 := some (fin 10), ardVal2 := some (fin 255) }
      written := [sendDataToArduino (fin 10) (fin 255)] }
  else { state := k, written := [] }

end BaseFile

namespace Sliders

/-- The function `sendDataToArduino()` of the slider sketch: the text
`convertedX + "," + convertedY + "\n"` passed to `port.write`. -/
def sendDataToArduino (convertedX convertedY : JsNum) : Option String :=
  csvLine convertedX convertedY

end Sliders

/-! ## The pose sketches: `webSerial_Point_at_You` and `WebSerial_ML5_Body_Point_to_LED_CSV` -/

/-- One keypoint of a pose detected by ml5: its position and its confidence. -/
structure Keypoint where
  x : JsNum
  y : JsNum
  confidence : JsNum
  deriving DecidableEq

/-- One pose detected by ml5, with its array of keypoints. -/
structure Pose where
  keypoints : List Keypoint
  deriving DecidableEq

/-- The p5.js constant `LEFT_ARROW`. -/
def LEFT_ARROW : ℕ := 37

/-- The p5.js constant `UP_ARROW`. -/
def UP_ARROW : ℕ := 38

/-- The p5.js constant `RIGHT_ARROW`. -/
def RIGHT_ARROW : ℕ := 39

/-- The p5.js constant `DOWN_ARROW`. -/
def DOWN_ARROW : ℕ := 40

/-- One key press: the values of the p5.js variables `key` and `keyCode`. -/
structure KeyEvent where
  key : String
  keyCode : ℕ
  deriving DecidableEq

namespace PointAtYou

/-- The function `updateServoValue(xPos)`: the new value of `servoVal`; `width` is
the width of the canvas. -/
def updateServoValue (xPos width SERVO_MIN SERVO_MAX : JsNum) : JsNum :=
  let servoStart := min SERVO_MIN SERVO_MAX
  let servoEnd := max SERVO_MIN SERVO_MAX
  let servoVal :=
    if JsNum.gt SERVO_MIN SERVO_MAX then map xPos (fin 0) width SERVO_MIN SERVO_MAX
    else map xPos (fin 0) width SERVO_MIN SERVO_MAX
  constrain servoVal servoStart servoEnd

/-- The function `sendDataToArduino()`: the text `round(servoVal) + ",90\n"` passed
to `port.write`. -/
def sendDataToArduino (servoVal : JsNum) : Option String :=
  (numberToString (round servoVal)).map (fun t => t ++ ",90\n")

/-- The function `getKeypoint(pointIndex, personIndex)`; `none` is `null`. Every
pose has its array of keypoints, so the test `!keypoints` never holds. -/
def getKeypoint (poses : List Pose) (pointIndex personIndex : ℕ) : Option Keypoint :=
  match poses with
  | [] => none
  | _ :: _ =>
      match poses[personIndex]? with
      | none => none
      | some pose => pose.keypoints[pointIndex]?

/-- The function `draw()`, for what it does to `servoVal` (`none` is `undefined`)
and to the port; `opened` is what `port.opened()` returns. -/
def draw (SERVO_MIN SERVO_MAX : JsNum) (poses : List Pose) (bodyPointIndex : ℕ)
    (confidenceThreshold width : JsNum) (opened : Bool) (servoVal : Option JsNum) :
    Tick (Option JsNum) :=
  if poses.length > 0 then
    match getKeypoint poses bodyPointIndex 0 with
    | some bodyPoint =>
        if JsNum.gt bodyPoint.confidence confidenceThreshold then
          let servoVal1 := updateServoValue bodyPoint.x width SERVO_MIN SERVO_MAX
          if opened then
            { state := some servoVal1, written := [sendDataToArduino servoVal1] }
          else { state := some servoVal1, written := [] }
        else { state := servoVal, written := [] }
    | none => { state := servoVal, written := [] }
  else { state := servoVal, written := [] }

/-- The function `keyPressed()`: the new values of `bodyPointIndex` and
`showVideo`. The operator `%` of JavaScript truncates towards zero. -/
def keyPressed (bodyPointIndex : ℤ) (showVideo : Bool) (e : KeyEvent) : ℤ × Bool :=
  let showVideo1 := if e.key = " " then !showVideo else showVideo
  let index1 :=
    if e.keyCode = LEFT_ARROW then Int.tmod (bodyPointIndex - 1 + 17) 17
    else bodyPointIndex
  let index2 := if e.keyCode = RIGHT_ARROW then Int.tmod (index1 + 1) 17 else index1
  (index2, showVideo1)

end PointAtYou

namespace BodyPointToLED

/-- The function `getConvertedValues(point)`: the fields `x` and `y` of the object
it returns. -/
def getConvertedValues (point : Keypoint) (width height : JsNum) : JsNum × JsNum :=
  let convertedX := map point.x (fin 0) width (fin 0) (fin 255)
  let convertedY := map point.y (fin 0) height (fin 0) (fin 255)
  (round convertedX, round convertedY)

/-- The function `sendDataToArduino(convertedValues)`: the text passed to
`port.write`. -/
def sendDataToArduino (convertedValues : JsNum × JsNum) : Option String :=
  csvLine convertedValues.1 convertedValues.2

/-- The function `draw()`, for what it writes to the port; `opened` is what
`port.opened()` returns. -/
def draw (poses : List Pose) (currentPoint : ℕ) (confidenceThreshold width height : JsNum)
    (opened : Bool) : List (Option String) :=
  match poses with
  | [] => []
  | pose :: _ =>
      if pose.keypoints.length > currentPoint then
        match pose.keypoints[currentPoint]? with
        | some point =>
            if JsNum.gt point.confidence confidenceThreshold then
              if opened then [sendDataToArduino (getConvertedValues point width height)]
              else []
            else []
        | none => []
      else []

/-- The function `keyPressed()`: the new values of `currentPoint` and `showVideo`. -/
def keyPressed (currentPoint : ℤ) (showVideo : Bool) (e : KeyEvent) : ℤ × Bool :=
  if e.keyCode = UP_ARROW then (Int.tmod (currentPoint + 1) 17, showVideo)
  else if e.keyCode = DOWN_ARROW then (Int.tmod (currentPoint - 1 + 17) 17, showVideo)
  else if e.key = " " then (currentPoint, !showVideo)
  else (currentPoint, showVideo)

end BodyPointToLED

/-! ## The mouse sketches -/

namespace ServoAngle

/-- The function `updateServoValues()` of `webSerial_mouseXY_to_Servo_Angle_CSV`: the
new values of `servoVal1` and `servoVal2`. -/
def updateServoValues (mouseX mouseY width height : JsNum) : JsNum × JsNum :=
  let servoVal1 := map mouseX (fin 0) width (fin 0) (fin 180)
  let servoVal2 := map mouseY (fin 0) height (fin 0) (fin 180)
  (constrain servoVal1 (fin 0) (fin 180), constrain servoVal2 (fin 0) (fin 180))

/-- The function `sendDataToArduino()`: the text passed to `port.write`. -/
def sendDataToArduino (servoVal1 servoVal2 : JsNum) : Option String :=
  csvLine (round servoVal1) (round servoVal2)

end ServoAngle

namespace MouseToLED

/-- The function `updateConvertedValues()` of `webSerial_mouse_to_LED_CSV`: the new
values of `convertedX` and `convertedY`. -/
def updateConvertedValues (mouseX mouseY width height : JsNum) : JsNum × JsNum :=
  (map mouseX (fin 0) width (fin 0) (fin 255), map mouseY (fin 0) height (fin 0) (fin 255))

/-- The function `sendDataToArduino()`: the text passed to `port.write`. -/
def sendDataToArduino (convertedX convertedY : JsNum) : Option String :=
  csvLine (round convertedX) (round convertedY)

end MouseToLED

/-! ## The wave sketch `webSerial_mouseX_to_Servo_Wiggle_CSV` -/

namespace ServoWiggle

/-- The function `getWaveAngle(speedMS, minAngle, maxAngle, centerAngle)`. The
p5.js function `sin` (in degrees) is the parameter `sin`, and `millis` is the value
`millis()` returns during the call. -/
def getWaveAngle (sin : JsNum → JsNum) (millis speedMS minAngle maxAngle centerAngle : JsNum) :
    JsNum :=
  let amplitude := div (sub maxAngle minAngle) (fin 2)
  let value := add (mul (sin (mul (fin 360) (div millis speedMS))) amplitude) centerAngle
  round (constrain value minAngle maxAngle)

/-- The function `sin` at the angle 0, where the sine is 0, for closed evaluations
at the time 0: the value 0 at the angle 0, and `NaN` (no value modelled) at every
other argument. -/
def sinAtZero : JsNum → JsNum
  | fin q => if q = 0 then fin 0 else nan
  | _ => nan

/-- The global variables of the sketch that `setup` and `draw` read or write; for
`servoAngle1` and `servoAngle2`, `none` is `undefined`. -/
structure Sketch where
  servoAngle1 : Option JsNum
  servoAngle2 : Option JsNum
  waveSpeed1 : JsNum
  waveSpeed2 : JsNum
  servo1Min : JsNum
  servo1Max : JsNum
  servo1Center : JsNum
  servo2Min : JsNum
  servo2Max : JsNum
  servo2Center : JsNum
  deriving DecidableEq

/-- The function `setup()`, for the variables of the sketch: the two centres are
computed from the limits, which are given with the two wave speeds. -/
def setup (waveSpeed1 waveSpeed2 servo1Min servo1Max servo2Min servo2Max : JsNum) : Sketch :=
  { servoAngle1 := none
    servoAngle2 := none
    waveSpeed1 := waveSpeed1
    waveSpeed2 := waveSpeed2
    servo1Min := servo1Min
    servo1Max := servo1Max
    servo1Center := div (add servo1Min servo1Max) (fin 2)
    servo2Min := servo2Min
    servo2Max := servo2Max
    servo2Center := div (add servo2Min servo2Max) (fin 2) }

/-- The function `sendDataToArduino()`: the text `servoAngle1 + "," + servoAngle2 +
"\n"` passed to `port.write`. -/
def sendDataToArduino (servoAngle1 servoAngle2 : JsNum) : Option String :=
  csvLine servoAngle1 servoAngle2

/-- The function `draw()`; `opened` is what `port.opened()` returns, `mouseX` and
`width` are the p5.js variables, `millis` is what `millis()` returns. -/
def draw (sin : JsNum → JsNum) (k : Sketch) (opened : Bool) (mouseX width millis : JsNum) :
    Tick Sketch :=
  if opened then
    if JsNum.lt mouseX (div width (fin 2)) then
      let servoAngle1 := getWaveAngle sin millis k.waveSpeed1 k.servo1Min k.servo1Max
        k.servo1Center
      let servoAngle2 := k.servo2Center
      { state := { k with servoAngle1 := some servoAngle1, servoAngle2 := some servoAngle2 }
        written := [sendDataToArduino servoAngle1 servoAngle2] }
    else
      let servoAngle1 := k.servo1Center
      let servoAngle2 := getWaveAngle sin millis k.waveSpeed2 k.servo2Min k.servo2Max
        k.servo2Center
      { state := { k with servoAngle1 := some servoAngle1, servoAngle2 := some servoAngle2 }
        written := [sendDataToArduino servoAngle1 servoAngle2] }
  else { state := k, written := [] }

end ServoWiggle

/-! ## Betweenness -/

/-- The test `min(a, b) <= x && x <= max(a, b)`: the value lies between the two
others. -/
def isBetween (x a b : JsNum) : Bool := le (mathMin a b) x && le x (mathMax a b)

/-- The three angles of a servo lie in the servo range `[0,180]`. -/
def Servo.anglesInRange (s : Servo) : Bool :=
  inRange s.currentAngle && inRange s.moveStartAngle && inRange s.targetAngle

/-- The field `currentAngle` lies between `moveStartAngle` and `targetAngle`. -/
def Servo.noOvershoot (s : Servo) : Bool :=
  isBetween s.currentAngle s.moveStartAngle s.targetAngle

/-- Invariant of a servo built with a move time above 0 and called at non-decreasing
times: the move time is finite and above 0, a segment under way started at a finite
time not later than `lo`, and angles that all lie in `[0,180]` have `currentAngle`
between the two others. -/
def SegmentInv (s : Servo) (lo : ℚ) : Prop :=
  (∃ d : ℚ, s.moveSpeed = fin d ∧ 0 < d) ∧
  (s.isMoving = true → ∃ t0 : ℚ, s.moveStartTime = fin t0 ∧ t0 ≤ lo) ∧
  (s.anglesInRange = true → s.noOvershoot = true)

end WebSerial

namespace WebSerial

open JsNum

/-! ## Arithmetic on finite values -/

theorem JsNum.sub_fin (a b : ℚ) : sub (fin a) (fin b) = fin (a - b) := by
  simp [sub, neg, add, sub_eq_add_neg]

theorem JsNum.add_fin (a b : ℚ) : add (fin a) (fin b) = fin (a + b) := rfl

theorem JsNum.mul_fin (a b : ℚ) : mul (fin a) (fin b) = fin (a * b) := rfl

theorem JsNum.div_fin (a b : ℚ) (hb : b ≠ 0) : div (fin a) (fin b) = fin (a / b) := by
  simp [div, hb]

theorem JsNum.le_fin (a b : ℚ) : le (fin a) (fin b) = decide (a ≤ b) := rfl

theorem JsNum.strictEq_fin (a b : ℚ) : strictEq (fin a) (fin b) = decide (a = b) := rfl

theorem JsNum.mathMin_fin (a b : ℚ) : mathMin (fin a) (fin b) = fin (Min.min a b) := by
  by_cases h : a ≤ b <;> simp [mathMin, le, h]
  exact le_of_lt (lt_of_not_le h)

theorem JsNum.mathMax_fin (a b : ℚ) : mathMax (fin a) (fin b) = fin (Max.max a b) := by
  by_cases h : a ≤ b <;> simp [mathMax, le, h]
  exact le_of_lt (lt_of_not_le h)

theorem lerp_fin (a b p : ℚ) : lerp (fin a) (fin b) (fin p) = fin (p * (b - a) + a) := by
  simp [lerp, JsNum.sub_fin, JsNum.mul_fin, JsNum.add_fin]

theorem constrain_fin (t : ℚ) :
    constrain (fin t) (fin 0) (fin 180) = fin (Max.max (Min.min t 180) 0) := by
  simp [constrain, JsNum.mathMin_fin, JsNum.mathMax_fin]

/-- Strict equality of two numbers implies that they are the same value. -/
theorem JsNum.eq_of_strictEq {a b : JsNum} (h : strictEq a b = true) : a = b := by
  cases a <;> cases b <;> simp_all [strictEq]

/-- Clamping anything but `NaN` to the servo range gives a finite value in `[0,180]`. -/
theorem constrain_range (t : JsNum) (ht : t ≠ nan) :
    ∃ q : ℚ, constrain t (fin 0) (fin 180) = fin q ∧ 0 ≤ q ∧ q ≤ 180 := by
  cases t with
  | fin a =>
      refine ⟨Max.max (Min.min a 180) 0, constrain_fin a, le_max_right _ _, ?_⟩
      exact max_le (min_le_right _ _) (by norm_num)
  | posInf => exact ⟨180, by simp [constrain, mathMin, mathMax, le], by norm_num, le_refl _⟩
  | negInf => exact ⟨0, by simp [constrain, mathMin, mathMax, le], le_refl _, by norm_num⟩
  | nan => exact absurd rfl ht

end WebSerial

namespace WebSerial

open JsNum Servo

/-! ## Basic facts about the two methods -/

/-- When the clamped request differs from `currentAngle`, `setTarget` starts a new
segment from the current value. -/
theorem setTarget_of_strictNe (s : Servo) (now t : JsNum)
    (h : strictNe (constrain t (fin 0) (fin 180)) s.currentAngle = true) :
    s.setTarget now t =
      { currentAngle := s.currentAngle
        targetAngle := constrain t (fin 0) (fin 180)
        moveSpeed := s.moveSpeed
        moveStartTime := now
        moveStartAngle := s.currentAngle
        isMoving := true } := by
  simp [Servo.setTarget, h]

/-- When the clamped request equals `currentAngle`, `setTarget` does nothing. -/
theorem setTarget_of_strictEq (s : Servo) (now t : JsNum)
    (h : strictEq (constrain t (fin 0) (fin 180)) s.currentAngle = true) :
    s.setTarget now t = s := by
  simp [Servo.setTarget, strictNe, h]

/-- The method `update` never changes `targetAngle`. -/
theorem update_targetAngle (s : Servo) (now : JsNum) :
    (s.update now).targetAngle = s.targetAngle := by
  simp only [Servo.update]
  split_ifs <;> rfl

/-- On a moving servo with move time `d > 0`, `update` at `moveStartTime + d` stops
the servo on its target. -/
theorem update_at_end (s : Servo) (t0 d : ℚ) (hd : 0 < d)
    (hm : s.isMoving = true) (hs : s.moveSpeed = fin d) (ht : s.moveStartTime = fin t0) :
    (s.update (fin (t0 + d))).currentAngle = s.targetAngle ∧
    (s.update (fin (t0 + d))).isMoving = false := by
  have hd0 : d ≠ 0 := ne_of_gt hd
  simp [Servo.update, hm, hs, ht, min, ge, JsNum.sub_fin, JsNum.div_fin _ _ hd0,
    JsNum.mathMin_fin, JsNum.le_fin, div_self hd0]

/-! ## `setTarget` -/

/-- C1, as stated, fails: a servo that left 0 for 180 at time 0 with a move time
of 1000 ms is at 90 at time 500; `setTarget(90)` is then ignored and the stored
target stays 180 instead of the clamped request 90. -/
theorem C1_counterexample :
    ((Servo.update (Servo.setTarget (Servo.constructor (fin 0) (fin 1000)) (fin 0) (fin 180))
        (fin 500)).setTarget (fin 500) (fin 90)).targetAngle
      ≠ constrain (fin 90) (fin 0) (fin 180) := by
  simp [Servo.update, Servo.setTarget, Servo.constructor, constrain, mathMin, mathMax,
    JsNum.le, strictNe, strictEq, min, lerp, JsNum.div, JsNum.sub, JsNum.add, JsNum.neg,
    JsNum.mul, ge]
  norm_num

/-- C1 (amended): in every state in which the clamped request differs from
`currentAngle`, or in which `targetAngle` already equals `currentAngle` (a servo at
rest), `setTarget(t)` stores `t` clamped to `[0,180]` as `targetAngle`; for a finite
`t` the clamp is `max(min(t,180),0)`, so that 200 is stored as 180. -/
theorem C1_setTarget_stores_clamped (s : Servo) (now t : JsNum)
    (h : strictEq (constrain t (fin 0) (fin 180)) s.currentAngle = true →
      s.targetAngle = s.currentAngle) :
    (s.setTarget now t).targetAngle = constrain t (fin 0) (fin 180) ∧
    (∀ q : ℚ, t = fin q →
      (s.setTarget now t).targetAngle = fin (Max.max (Min.min q 180) 0)) ∧
    constrain (fin 200) (fin 0) (fin 180) = fin 180 := by
  have key : (s.setTarget now t).targetAngle = constrain t (fin 0) (fin 180) := by
    unfold Servo.setTarget
    by_cases hne : strictNe (constrain t (fin 0) (fin 180)) s.currentAngle = true
    · simp [hne]
    · have heq : strictEq (constrain t (fin 0) (fin 180)) s.currentAngle = true := by
        simpa [strictNe] using hne
      simp only [hne]
      simp [h heq, JsNum.eq_of_strictEq heq]
  refine ⟨key, ?_, ?_⟩
  · intro q hq
    rw [key, hq, constrain_fin]
  · rw [constrain_fin]; norm_num

/-- Witness for C1: a servo at rest at 90 that is asked for 200 stores 180. -/
theorem C1_setTarget_stores_clamped_witness :
    ((Servo.constructor (fin 90) (fin 1000)).setTarget (fin 0) (fin 200)).targetAngle
      = constrain (fin 200) (fin 0) (fin 180) :=
  (C1_setTarget_stores_clamped (Servo.constructor (fin 90) (fin 1000)) (fin 0) (fin 200)
    (fun _ => rfl)).1

/-- C6: when the clamped request differs from `currentAngle`, `setTarget(t)` starts
a new segment from the current value: `targetAngle` is the clamped request,
`moveStartAngle` the old `currentAngle`, `moveStartTime` the present time and
`isMoving` true, while `currentAngle` and `moveSpeed` keep their values. -/
theorem C6_setTarget_rebases (s : Servo) (now t : JsNum)
    (h : strictNe (constrain t (fin 0) (fin 180)) s.currentAngle = true) :
    s.setTarget now t =
      { currentAngle := s.currentAngle
        targetAngle := constrain t (fin 0) (fin 180)
        moveSpeed := s.moveSpeed
        moveStartTime := now
        moveStartAngle := s.currentAngle
        isMoving := true } :=
  setTarget_of_strictNe s now t h

/-- Witness for C6: a servo resting at 90 that is asked for 45 at time 1000. -/
theorem C6_setTarget_rebases_witness :
    (Servo.constructor (fin 90) (fin 1000)).setTarget (fin 1000) (fin 45) =
      { currentAngle := fin 90
        targetAngle := constrain (fin 45) (fin 0) (fin 180)
        moveSpeed := fin 1000
        moveStartTime := fin 1000
        moveStartAngle := fin 90
        isMoving := true } :=
  C6_setTarget_rebases (Servo.constructor (fin 90) (fin 1000)) (fin 1000) (fin 45)
    (by simp [Servo.constructor, constrain, mathMin, mathMax, JsNum.le, strictNe, strictEq]
        norm_num)

/-- C7: when the clamped request equals `currentAngle`, `setTarget(t)` changes no
field of the servo. -/
theorem C7_setTarget_noop (s : Servo) (now t : JsNum)
    (h : strictEq (constrain t (fin 0) (fin 180)) s.currentAngle = true) :
    s.setTarget now t = s :=
  setTarget_of_strictEq s now t h

/-- Witness for C7: a servo resting at 180 that is asked for 200. -/
theorem C7_setTarget_noop_witness :
    (Servo.constructor (fin 180) (fin 1000)).setTarget (fin 7) (fin 200) =
      Servo.constructor (fin 180) (fin 1000) :=
  C7_setTarget_noop (Servo.constructor (fin 180) (fin 1000)) (fin 7) (fin 200)
    (by simp [Servo.constructor, constrain, mathMin, mathMax, JsNum.le, strictEq]
        norm_num)

end WebSerial

namespace WebSerial

open JsNum Servo

/-- C5, as stated, fails: a servo that left 0 for 180 at time 0 is at 90 at time
500; asking for 180 again at that time restarts the segment, with
`moveStartAngle` 90 instead of 0 and `moveStartTime` 500 instead of 0. -/
theorem C5_counterexample :
    (Servo.update (Servo.setTarget (Servo.constructor (fin 0) (fin 1000)) (fin 0) (fin 180))
        (fin 500)).isMoving = true ∧
    (Servo.update (Servo.setTarget (Servo.constructor (fin 0) (fin 1000)) (fin 0) (fin 180))
        (fin 500)).targetAngle = constrain (fin 180) (fin 0) (fin 180) ∧
    (Servo.update (Servo.setTarget (Servo.constructor (fin 0) (fin 1000)) (fin 0) (fin 180))
        (fin 500)).moveStartAngle = fin 0 ∧
    (Servo.update (Servo.setTarget (Servo.constructor (fin 0) (fin 1000)) (fin 0) (fin 180))
        (fin 500)).moveStartTime = fin 0 ∧
    ((Servo.update (Servo.setTarget (Servo.constructor (fin 0) (fin 1000)) (fin 0) (fin 180))
        (fin 500)).setTarget (fin 500) (fin 180)).moveStartAngle = fin 90 ∧
    ((Servo.update (Servo.setTarget (Servo.constructor (fin 0) (fin 1000)) (fin 0) (fin 180))
        (fin 500)).setTarget (fin 500) (fin 180)).moveStartTime = fin 500 := by
  simp [Servo.update, Servo.setTarget, Servo.constructor, constrain, mathMin, mathMax,
    JsNum.le, strictNe, strictEq, min, lerp, JsNum.div, JsNum.sub, JsNum.add, JsNum.neg,
    JsNum.mul, ge]
  norm_num

/-- C5 (amended): for a moving servo, `setTarget` with a value whose clamp equals
the current `targetAngle` leaves `targetAngle` and `isMoving` unchanged. When the
target differs from `currentAngle` the segment is restarted from the current
value (`moveStartAngle` becomes `currentAngle`, `moveStartTime` the present time);
when it equals `currentAngle` nothing changes. -/
theorem C5_setTarget_same_target (s : Servo) (now t : JsNum)
    (hm : s.isMoving = true)
    (ht : constrain t (fin 0) (fin 180) = s.targetAngle) :
    (s.setTarget now t).targetAngle = s.targetAngle ∧
    (s.setTarget now t).isMoving = true ∧
    (strictNe s.targetAngle s.currentAngle = true →
      (s.setTarget now t).moveStartAngle = s.currentAngle ∧
      (s.setTarget now t).moveStartTime = now) ∧
    (strictEq s.targetAngle s.currentAngle = true → s.setTarget now t = s) := by
  unfold Servo.setTarget
  rw [ht]
  by_cases hne : strictNe s.targetAngle s.currentAngle = true
  · have hneq : strictEq s.targetAngle s.currentAngle = false := by
      simpa [strictNe] using hne
    simp [hne, hneq]
  · have heq : strictEq s.targetAngle s.currentAngle = true := by
      simpa [strictNe] using hne
    simp [strictNe, heq, hm]

/-- Witness for C5: the servo of the counterexample, moving from 0 to 180. -/
theorem C5_setTarget_same_target_witness :
    (Servo.setTarget ⟨fin 90, fin 180, fin 1000, fin 0, fin 0, true⟩ (fin 500)
        (fin 180)).targetAngle = fin 180 ∧
    (Servo.setTarget ⟨fin 90, fin 180, fin 1000, fin 0, fin 0, true⟩ (fin 500)
        (fin 180)).isMoving = true :=
  have h := C5_setTarget_same_target ⟨fin 90, fin 180, fin 1000, fin 0, fin 0, true⟩
    (fin 500) (fin 180) rfl (by rw [constrain_fin]; norm_num)
  ⟨h.1, h.2.1⟩

/-! ## `update` -/

/-- C3: for a moving servo with a move time `d > 0`, whatever its start and target
angles, `update` at `millis() = moveStartTime + d` leaves `currentAngle` equal to
`targetAngle` and `isMoving` false. -/
theorem C3_update_at_end (s : Servo) (t0 d : ℚ) (hd : 0 < d)
    (hm : s.isMoving = true) (hs : s.moveSpeed = fin d) (ht : s.moveStartTime = fin t0) :
    (s.update (fin (t0 + d))).currentAngle = s.targetAngle ∧
    (s.update (fin (t0 + d))).isMoving = false :=
  update_at_end s t0 d hd hm hs ht

/-- Witness for C3: a servo that left 30 for 120 at time 250 with a move time of
1000 ms, updated at time 1250. -/
theorem C3_update_at_end_witness :
    (Servo.update ⟨fin 30, fin 120, fin 1000, fin 250, fin 30, true⟩
        (fin (250 + 1000))).currentAngle = fin 120 ∧
    (Servo.update ⟨fin 30, fin 120, fin 1000, fin 250, fin 30, true⟩
        (fin (250 + 1000))).isMoving = false :=
  C3_update_at_end ⟨fin 30, fin 120, fin 1000, fin 250, fin 30, true⟩ 250 1000
    (by norm_num) rfl rfl rfl

/-- C4, evaluated on the code: with a move time of 0, `setTarget(45)` at time 1000
followed by `update` at the same time computes `0 / 0`, which is `NaN`; the servo
is left with `currentAngle` `NaN` and `isMoving` true. Only an `update` at a
strictly later time jumps to 45 and stops. -/
theorem C4_zero_duration_same_time :
    (Servo.update (Servo.setTarget (Servo.constructor (fin 90) (fin 0)) (fin 1000) (fin 45))
        (fin 1000)).currentAngle = nan ∧
    (Servo.update (Servo.setTarget (Servo.constructor (fin 90) (fin 0)) (fin 1000) (fin 45))
        (fin 1000)).isMoving = true ∧
    (Servo.update (Servo.setTarget (Servo.constructor (fin 90) (fin 0)) (fin 1000) (fin 45))
        (fin 1001)).currentAngle = fin 45 ∧
    (Servo.update (Servo.setTarget (Servo.constructor (fin 90) (fin 0)) (fin 1000) (fin 45))
        (fin 1001)).isMoving = false := by
  simp [Servo.update, Servo.setTarget, Servo.constructor, constrain, mathMin, mathMax,
    JsNum.le, strictNe, strictEq, min, lerp, JsNum.div, JsNum.sub, JsNum.add, JsNum.neg,
    JsNum.mul, ge, signedInf]
  norm_num

/-- C8: `update` changes nothing on a servo that is not moving, at any time, and so
does any number of successive `update` calls. -/
theorem C8_update_idle (s : Servo) (h : s.isMoving = false) :
    (∀ now : JsNum, s.update now = s) ∧
    (∀ nows : List JsNum, nows.foldl Servo.update s = s) := by
  have one : ∀ now : JsNum, s.update now = s := by
    intro now
    simp [Servo.update, h]
  refine ⟨one, ?_⟩
  intro nows
  induction nows with
  | nil => rfl
  | cons now rest ih => simpa [List.foldl, one now] using ih

/-- Witness for C8: a servo that has just been constructed. -/
theorem C8_update_idle_witness :
    (Servo.constructor (fin 90) (fin 1000)).update (fin 16) =
      Servo.constructor (fin 90) (fin 1000) :=
  (C8_update_idle (Servo.constructor (fin 90) (fin 1000)) rfl).1 (fin 16)

end WebSerial

namespace WebSerial

open JsNum Servo

/-! ## The interpolated angle -/

/-- The value `update` gives to `currentAngle` on a moving servo with finite fields
and a move time `d > 0`: linear interpolation with progress `min(elapsed / d, 1)`. -/
theorem update_currentAngle_fin (s : Servo) (sa ta t0 d now : ℚ) (hd : 0 < d)
    (hm : s.isMoving = true) (hs : s.moveSpeed = fin d) (ht : s.moveStartTime = fin t0)
    (hsa : s.moveStartAngle = fin sa) (hta : s.targetAngle = fin ta) :
    (s.update (fin now)).currentAngle
      = fin (sa + (ta - sa) * Min.min ((now - t0) / d) 1) := by
  have hd0 : d ≠ 0 := ne_of_gt hd
  by_cases hp : 1 ≤ (now - t0) / d
  · simp [Servo.update, hm, hs, ht, hsa, hta, min, ge, JsNum.sub_fin, JsNum.div_fin _ _ hd0,
      JsNum.mathMin_fin, JsNum.le_fin, lerp_fin, hp, min_eq_right hp]
  · have hlt : (now - t0) / d < 1 := lt_of_not_le hp
    simp [Servo.update, hm, hs, ht, hsa, hta, min, ge, JsNum.sub_fin, JsNum.div_fin _ _ hd0,
      JsNum.mathMin_fin, JsNum.le_fin, lerp_fin, hp, min_eq_left (le_of_lt hlt)]
    ring

/-! ## The range invariant -/

theorem RangeInv.mono {s : Servo} {lo hi : ℚ} (h : RangeInv s lo) (hle : lo ≤ hi) :
    RangeInv s hi := by
  obtain ⟨c, ta, d, t0, sa, h1, h2, h3, h4, h5, hd, hc, hta, hsa, hm⟩ := h
  exact ⟨c, ta, d, t0, sa, h1, h2, h3, h4, h5, hd, hc, hta, hsa,
    fun hmv => le_trans (hm hmv) hle⟩

theorem RangeInv.inRange {s : Servo} {lo : ℚ} (h : RangeInv s lo) :
    inRange s.currentAngle = true := by
  obtain ⟨c, ta, d, t0, sa, h1, -, -, -, -, -, hc, -, -, -⟩ := h
  simp [WebSerial.inRange, h1, JsNum.le_fin, hc.1, hc.2]

theorem RangeInv.setTarget {s : Servo} {lo : ℚ} (h : RangeInv s lo) (now : ℚ)
    (hlo : lo ≤ now) (t : JsNum) (ht : t ≠ nan) :
    RangeInv (s.setTarget (fin now) t) now := by
  by_cases hne : strictNe (constrain t (fin 0) (fin 180)) s.currentAngle = true
  · obtain ⟨c, ta, d, t0, sa, h1, h2, h3, h4, h5, hd, hc, hta, hsa, hm⟩ := h
    obtain ⟨q, hq, hq0, hq1⟩ := constrain_range t ht
    rw [setTarget_of_strictNe s (fin now) t hne]
    exact ⟨c, q, d, now, c, h1, hq, h3, rfl, h1, hd, hc, ⟨hq0, hq1⟩, hc, fun _ => le_refl _⟩
  · have heq : strictEq (constrain t (fin 0) (fin 180)) s.currentAngle = true := by
      simpa [strictNe] using hne
    rw [setTarget_of_strictEq s (fin now) t heq]
    exact h.mono hlo

theorem RangeInv.update {s : Servo} {lo : ℚ} (h : RangeInv s lo) (now : ℚ)
    (hlo : lo ≤ now) : RangeInv (s.update (fin now)) now := by
  by_cases hmv : s.isMoving = true
  · obtain ⟨c, ta, d, t0, sa, h1, h2, h3, h4, h5, hd, hc, hta, hsa, hm⟩ := h
    have ht0 : t0 ≤ now := le_trans (hm hmv) hlo
    have hcur := update_currentAngle_fin s sa ta t0 d now hd hmv h3 h4 h5 h2
    have hp0 : 0 ≤ Min.min ((now - t0) / d) 1 :=
      le_min (div_nonneg (by linarith) (le_of_lt hd)) (by norm_num)
    have hp1 : Min.min ((now - t0) / d) 1 ≤ 1 := min_le_right _ _
    have hrest : (s.update (fin now)).moveSpeed = fin d ∧
        (s.update (fin now)).moveStartTime = fin t0 ∧
        (s.update (fin now)).moveStartAngle = fin sa := by
      simp only [Servo.update]
      split_ifs <;> exact ⟨h3, h4, h5⟩
    refine ⟨_, ta, d, t0, sa, hcur, by rw [update_targetAngle, h2], hrest.1, hrest.2.1,
      hrest.2.2, hd, ⟨?_, ?_⟩, hta, hsa, fun _ => ht0⟩
    · nlinarith [mul_nonneg hp0 hta.1, mul_nonneg (sub_nonneg.mpr hp1) hsa.1]
    · nlinarith [mul_nonneg hp0 (sub_nonneg.mpr hta.2),
        mul_nonneg (sub_nonneg.mpr hp1) (sub_nonneg.mpr hsa.2)]
  · have hs : s.update (fin now) = s := by simp [Servo.update, hmv]
    rw [hs]
    exact h.mono hlo

theorem RangeInv.run (calls : List (ℚ × Call)) :
    ∀ (s : Servo) (lo : ℚ), RangeInv s lo → (∀ c ∈ calls, lo ≤ c.1) →
      nonDecreasing calls → targetsAreNumbers calls →
      ∃ hi, RangeInv (s.run calls) hi := by
  induction calls with
  | nil => intro s lo h _ _ _; exact ⟨lo, h⟩
  | cons c rest ih =>
      intro s lo h hlo hsorted hnum
      have hc : lo ≤ c.1 := hlo c (List.mem_cons_self _ _)
      have hstep : RangeInv (s.step c) c.1 := by
        unfold Servo.step
        cases hk : c.2 with
        | setTarget t =>
            have : t ≠ nan := by
              intro ht
              exact hnum c (List.mem_cons_self _ _) (by rw [hk, ht])
            exact h.setTarget c.1 hc t this
        | update => exact h.update c.1 hc
      have hp := List.pairwise_cons.mp hsorted
      exact ih (s.step c) c.1 hstep (fun x hx => hp.1 x hx) hp.2
        (fun x hx => hnum x (List.mem_cons_of_mem _ hx))

/-- C2, as stated, fails: a servo constructed with the angle 200 has `currentAngle`
200 before any call; with a move time of 0, `setTarget(45)` and `update` at the
same time leave `currentAngle` `NaN`; with a move time of -1000 a servo sent from 0
to 180 is at -180 a second later; and a `NaN` target makes `currentAngle` `NaN`. -/
theorem C2_counterexample :
    inRange ((Servo.constructor (fin 200) (fin 1000)).run []).currentAngle = false ∧
    inRange ((Servo.constructor (fin 90) (fin 0)).run
      [(1000, Call.setTarget (fin 45)), (1000, Call.update)]).currentAngle = false ∧
    inRange ((Servo.constructor (fin 0) (fin (-1000))).run
      [(0, Call.setTarget (fin 180)), (1000, Call.update)]).currentAngle = false ∧
    inRange ((Servo.constructor (fin 90) (fin 1000)).run
      [(0, Call.setTarget nan), (500, Call.update)]).currentAngle = false := by
  simp [Servo.run, Servo.step, Servo.update, Servo.setTarget, Servo.constructor, inRange,
    constrain, mathMin, mathMax, JsNum.le, strictNe, strictEq, min, lerp, JsNum.div,
    JsNum.sub, JsNum.add, JsNum.neg, JsNum.mul, ge, signedInf]
  norm_num

/-- C2 (amended): for a servo constructed with an angle in `[0,180]` and a move
time `d > 0`, and every sequence of `setTarget` calls (with targets other than
`NaN`) and `update` calls made at non-decreasing times, `currentAngle` lies in
`[0,180]` after every call of the sequence. -/
theorem C2_currentAngle_in_range (a d : ℚ) (ha0 : 0 ≤ a) (ha1 : a ≤ 180) (hd : 0 < d)
    (calls : List (ℚ × Call)) (hsorted : nonDecreasing calls)
    (hnum : targetsAreNumbers calls) (n : ℕ) :
    inRange ((Servo.constructor (fin a) (fin d)).run (calls.take n)).currentAngle
      = true := by
  have hinit : ∀ lo : ℚ, RangeInv (Servo.constructor (fin a) (fin d)) lo := fun lo =>
    ⟨a, a, d, 0, a, rfl, rfl, rfl, rfl, rfl, hd, ⟨ha0, ha1⟩, ⟨ha0, ha1⟩, ⟨ha0, ha1⟩,
      fun h => by simp [Servo.constructor] at h⟩
  have hs : nonDecreasing (calls.take n) :=
    List.Pairwise.sublist (List.take_sublist n calls) hsorted
  have hn : targetsAreNumbers (calls.take n) :=
    fun c hc => hnum c (List.mem_of_mem_take hc)
  cases hk : calls.take n with
  | nil => exact (hinit 0).inRange
  | cons c rest =>
      rw [hk] at hs hn
      have hlo : ∀ x ∈ c :: rest, c.1 ≤ x.1 := by
        intro x hx
        rcases List.mem_cons.mp hx with h | h
        · rw [h]
        · exact (List.pairwise_cons.mp hs).1 x h
      obtain ⟨hi, hinv⟩ := RangeInv.run (c :: rest) _ c.1 (hinit c.1) hlo hs hn
      exact hinv.inRange

/-- Witness for C2: a servo built at 90 with a move time of 1000 ms, asked for 200
at time 0 and updated at time 500. -/
theorem C2_currentAngle_in_range_witness :
    inRange ((Servo.constructor (fin 90) (fin 1000)).run
      ([((0 : ℚ), Call.setTarget (fin 200)), (500, Call.update)].take 2)).currentAngle
      = true :=
  C2_currentAngle_in_range 90 1000 (by norm_num) (by norm_num) (by norm_num)
    [(0, Call.setTarget (fin 200)), (500, Call.update)]
    (by simp [nonDecreasing])
    (by simp [targetsAreNumbers]) 2

end WebSerial

namespace WebSerial

open JsNum

/-! ## Decimal numerals -/

theorem digitValue_digitChar (m : ℕ) (h : m < 10) :
    digitValue (Nat.digitChar m) = some m := by
  interval_cases m <;> rfl

theorem parseDigits_append (l1 l2 : List Char) :
    ∀ acc : ℕ, parseDigits (l1 ++ l2) acc = (parseDigits l1 acc).bind (parseDigits l2) := by
  induction l1 with
  | nil => intro acc; rfl
  | cons c cs ih =>
      intro acc
      simp only [List.cons_append, parseDigits]
      cases digitValue c with
      | none => rfl
      | some d => exact ih _

/-- Appending the digit `r` to a decimal numeral of `q` (a non-empty run of digit
characters that reads back as `q`) gives a decimal numeral of `10 * q + r`. -/
theorem numeral_snoc (run : List Char) (q r : ℕ) (hr : r < 10)
    (h : run ≠ [] ∧ (∀ c ∈ run, (digitValue c).isSome = true) ∧ parseDigits run 0 = some q) :
    run ++ [Nat.digitChar r] ≠ [] ∧
    (∀ c ∈ run ++ [Nat.digitChar r], (digitValue c).isSome = true) ∧
    parseDigits (run ++ [Nat.digitChar r]) 0 = some (10 * q + r) := by
  have hd := digitValue_digitChar r hr
  refine ⟨by simp, ?_, ?_⟩
  · intro c hc
    rcases List.mem_append.mp hc with hc | hc
    · exact h.2.1 c hc
    · rw [List.mem_singleton.mp hc, hd]; rfl
  · rw [parseDigits_append, h.2.2]
    simp only [Option.bind, parseDigits, hd]

/-- When the fuel exceeds the number, `Nat.toDigitsCore` in base 10 writes a decimal
numeral of the number in front of the characters it was given. -/
theorem toDigitsCore_reads_back :
    ∀ (fuel n : ℕ) (tail : List Char), n < fuel →
      ∃ run : List Char,
        (run ≠ [] ∧ (∀ c ∈ run, (digitValue c).isSome = true) ∧
          parseDigits run 0 = some n) ∧
        Nat.toDigitsCore 10 fuel n tail = run ++ tail := by
  intro fuel
  induction fuel with
  | zero => intro n tail h; omega
  | succ fuel ih =>
      intro n tail h
      have hr : n % 10 < 10 := Nat.mod_lt _ (by norm_num)
      by_cases hz : n / 10 = 0
      · have hn : n % 10 = n := by omega
        have hd := digitValue_digitChar n (by omega)
        refine ⟨[Nat.digitChar n], ⟨by simp, ?_, ?_⟩, by simp [Nat.toDigitsCore, hz, hn]⟩
        · intro c hc
          rw [List.mem_singleton.mp hc, hd]; rfl
        · simp [parseDigits, hd]
      · obtain ⟨run, hrun, heq⟩ := ih (n / 10) (Nat.digitChar (n % 10) :: tail) (by omega)
        have hsnoc := numeral_snoc run (n / 10) (n % 10) hr hrun
        have hval : 10 * (n / 10) + n % 10 = n := by omega
        rw [hval] at hsnoc
        exact ⟨run ++ [Nat.digitChar (n % 10)], hsnoc, by simp [Nat.toDigitsCore, hz, heq]⟩

/-- The decimal numeral of a natural number is a non-empty run of digit characters
that reads back as the number. -/
theorem repr_reads_back (n : ℕ) :
    (∀ c ∈ (Nat.repr n).data, (digitValue c).isSome = true) ∧
    parseDecimal (Nat.repr n).data = some n := by
  obtain ⟨run, ⟨h2, h3, h4⟩, h1⟩ := toDigitsCore_reads_back (n + 1) n [] (by omega)
  have hdata : (Nat.repr n).data = run := by
    simp [Nat.repr, Nat.toDigits, List.asString, h1]
  rw [hdata]
  refine ⟨h3, ?_⟩
  cases run with
  | nil => exact absurd rfl h2
  | cons c cs => exact h4

theorem splitOnComma_of_not_mem (l : List Char) (h : ',' ∉ l) : splitOnComma l = [l] := by
  induction l with
  | nil => rfl
  | cons c cs ih =>
      have hc : c ≠ ',' := fun e => h (by simp [e])
      have hcs : ',' ∉ cs := fun e => h (List.mem_cons_of_mem _ e)
      simp [splitOnComma, hc, ih hcs]

theorem splitOnComma_append_comma (l1 l2 : List Char) (h : ',' ∉ l1) :
    splitOnComma (l1 ++ ',' :: l2) = l1 :: splitOnComma l2 := by
  induction l1 with
  | nil => simp [splitOnComma]
  | cons c cs ih =>
      have hc : c ≠ ',' := fun e => h (by simp [e])
      have hcs : ',' ∉ cs := fun e => h (List.mem_cons_of_mem _ e)
      simp [splitOnComma, hc, ih hcs]

theorem dropTrailingNewline_append (l : List Char) :
    dropTrailingNewline (l ++ ['\n']) = l := by
  simp [dropTrailingNewline]

theorem comma_not_mem_repr (n : ℕ) : ',' ∉ (Nat.repr n).data := by
  intro h
  have := (repr_reads_back n).1 ',' h
  simp [digitValue] at this

/-- The text of a natural number up to `2^53` is its decimal numeral. -/
theorem numberToString_natCast (n : ℕ) (h : n ≤ 2 ^ 53) :
    numberToString (fin (n : ℚ)) = some (Nat.repr n) := by
  have h21 : n < 1000000000000000000000 := lt_of_le_of_lt h (by norm_num)
  have h53 : n ≤ 9007199254740992 := by norm_num at h; exact h
  simp [numberToString, naturalToString, h53, h21]

/-- The text of an integer of absolute value up to `2^53` is its decimal numeral,
with a minus sign in front when it is negative. -/
theorem numberToString_intCast (a : ℤ) (h : a.natAbs ≤ 2 ^ 53) :
    numberToString (fin (a : ℚ)) = some (toString a) := by
  have h21 : a.natAbs < 10 ^ 21 := lt_of_le_of_lt h (by norm_num)
  cases a with
  | ofNat m =>
      have hm : m ≤ 2 ^ 53 := by simpa using h
      have := numberToString_natCast m hm
      simpa using this
  | negSucc m =>
      have hneg : (Int.negSucc m) < 0 := Int.negSucc_lt_zero m
      simp only [numberToString, Rat.intCast_den, Rat.intCast_num, if_true, hneg,
        naturalToString, h21, h, true_or]
      rfl

end WebSerial

namespace WebSerial

open JsNum

/-! ## Rounding and the line sent to the Arduino -/

/-- The value of `round` on a finite number is `floor(x + 1/2)`: an integer nearest
to `x`, and the upper one of the two when `x` is half-way between two integers. -/
theorem round_fin_nearest (c : ℚ) :
    round (fin c) = fin ((⌊c + 1 / 2⌋ : ℤ) : ℚ) ∧
    (∀ m : ℤ, |c - (⌊c + 1 / 2⌋ : ℤ)| ≤ |c - m|) ∧
    (∀ k : ℤ, c = k + 1 / 2 → ⌊c + 1 / 2⌋ = k + 1) := by
  have hl : ((⌊c + 1 / 2⌋ : ℤ) : ℚ) ≤ c + 1 / 2 := Int.floor_le _
  have hu : c + 1 / 2 < ((⌊c + 1 / 2⌋ : ℤ) : ℚ) + 1 := Int.lt_floor_add_one _
  refine ⟨rfl, ?_, ?_⟩
  · intro m
    have hn : |c - (⌊c + 1 / 2⌋ : ℤ)| ≤ 1 / 2 := abs_le.mpr ⟨by linarith, by linarith⟩
    rcases lt_trichotomy m ⌊c + 1 / 2⌋ with h | h | h
    · have h1 : (m : ℚ) + 1 ≤ (⌊c + 1 / 2⌋ : ℤ) := by exact_mod_cast h
      have h2 : c - m ≤ |c - m| := le_abs_self _
      linarith
    · rw [h]
    · have h1 : ((⌊c + 1 / 2⌋ : ℤ) : ℚ) + 1 ≤ m := by exact_mod_cast h
      have h2 : -(c - m) ≤ |c - m| := neg_le_abs _
      linarith
  · intro k hk
    rw [hk]
    have : (k : ℚ) + 1 / 2 + 1 / 2 = ((k + 1 : ℤ) : ℚ) := by push_cast; ring
    rw [this, Int.floor_intCast]

/-- The value of `round` on a finite number of `[lo, hi]`, for integers `lo` and
`hi`, is an integer of `[lo, hi]`. -/
theorem round_fin_range (c : ℚ) (lo hi : ℤ) (h0 : (lo : ℚ) ≤ c) (h1 : c ≤ hi) :
    lo ≤ ⌊c + 1 / 2⌋ ∧ ⌊c + 1 / 2⌋ ≤ hi := by
  have hl : ((⌊c + 1 / 2⌋ : ℤ) : ℚ) ≤ c + 1 / 2 := Int.floor_le _
  constructor
  · exact Int.le_floor.mpr (by linarith)
  · have h2 : ((⌊c + 1 / 2⌋ : ℤ) : ℚ) < ((hi + 1 : ℤ) : ℚ) := by push_cast; linarith
    have h3 : ⌊c + 1 / 2⌋ < hi + 1 := by exact_mod_cast h2
    omega

/-- C11: for a `currentAngle` in `[0,180]`, `getCurrentAngle` returns an integer of
`[0,180]` nearest to `currentAngle`, and the upper integer (the one away from zero)
when `currentAngle` is exactly half-way; `sendDataToArduino` applies it to both
servos. -/
theorem C11_getCurrentAngle_nearest (s : Servo) (c : ℚ) (hc : s.currentAngle = fin c)
    (h0 : 0 ≤ c) (h1 : c ≤ 180) :
    (∃ n : ℤ, s.getCurrentAngle = fin (n : ℚ) ∧ 0 ≤ n ∧ n ≤ 180 ∧
      (∀ m : ℤ, |c - n| ≤ |c - m|) ∧
      (∀ k : ℤ, c = k + 1 / 2 → n = k + 1 ∧ |c| < |(n : ℚ)|)) ∧
    (∀ k : ServoClass.Sketch, ServoClass.sendDataToArduino k
      = csvLine (round k.servo1.currentAngle) (round k.servo2.currentAngle)) := by
  obtain ⟨hr, hnear, hhalf⟩ := round_fin_nearest c
  obtain ⟨hlo, hhi⟩ := round_fin_range c 0 180 (by simpa using h0) (by simpa using h1)
  refine ⟨⟨⌊c + 1 / 2⌋, ?_, hlo, hhi, hnear, ?_⟩, fun k => rfl⟩
  · rw [Servo.getCurrentAngle, hc, hr]
  · intro k hk
    refine ⟨hhalf k hk, ?_⟩
    rw [hhalf k hk, abs_of_nonneg h0]
    have hk0 : (0 : ℚ) ≤ ((k + 1 : ℤ) : ℚ) := by
      have := hhalf k hk
      rw [← this]
      exact_mod_cast hlo
    rw [abs_of_nonneg hk0, hk]
    push_cast
    linarith

/-- Witness for C11: a servo at 112.5 reports an integer nearest to 112.5, which
for the half is 113. -/
theorem C11_getCurrentAngle_nearest_witness :
    ∃ n : ℤ, (Servo.getCurrentAngle ⟨fin (225 / 2), fin 135, fin 1000, fin 0, fin 90, true⟩)
        = fin (n : ℚ) ∧ 0 ≤ n ∧ n ≤ 180 ∧
      (∀ m : ℤ, |(225 / 2 : ℚ) - n| ≤ |(225 / 2 : ℚ) - m|) ∧
      (∀ k : ℤ, (225 / 2 : ℚ) = k + 1 / 2 → n = k + 1 ∧ |(225 / 2 : ℚ)| < |(n : ℚ)|) :=
  (C11_getCurrentAngle_nearest ⟨fin (225 / 2), fin 135, fin 1000, fin 0, fin 90, true⟩
    (225 / 2) rfl (by norm_num) (by norm_num)).1

/-- The line built from two integers of absolute value up to `2^53`. -/
theorem csvLine_intCast (a b : ℤ) (ha : a.natAbs ≤ 2 ^ 53) (hb : b.natAbs ≤ 2 ^ 53) :
    csvLine (fin (a : ℚ)) (fin (b : ℚ)) = some (toString a ++ "," ++ toString b ++ "\n") := by
  simp only [csvLine, numberToString_intCast a ha, numberToString_intCast b hb]

/-- C12, as stated, fails: for the integer `10^21` the text JavaScript concatenates
is `1e+21`, so the line is `1e+21,255` and a newline, not the base-10 text of the
integer followed by `,255` and a newline. -/
theorem C12_counterexample :
    BaseFile.sendDataToArduino (fin ((10 ^ 21 : ℤ) : ℚ)) (fin ((255 : ℤ) : ℚ))
      = some "1e+21,255\n" ∧
    toString (10 ^ 21 : ℤ) ++ "," ++ toString (255 : ℤ) ++ "\n"
      = "1000000000000000000000,255\n" := by
  constructor
  · decide
  · decide

/-- C12 (amended): for every pair of integers `a`, `b` of absolute value up to
`2^53`, the line built by `sendDataToArduino` is the base-10 text of `a`, one comma,
the base-10 text of `b` and one newline; for 10 and 255 it is `10,255` and a
newline. -/
theorem C12_line_format (a b : ℤ) (ha : a.natAbs ≤ 2 ^ 53) (hb : b.natAbs ≤ 2 ^ 53) :
    BaseFile.sendDataToArduino (fin (a : ℚ)) (fin (b : ℚ))
      = some (toString a ++ "," ++ toString b ++ "\n") ∧
    BaseFile.sendDataToArduino (fin 10) (fin 255) = some "10,255\n" := by
  refine ⟨csvLine_intCast a b ha hb, ?_⟩
  decide

/-- Witness for C12: the pair -7 and 180. -/
theorem C12_line_format_witness :
    BaseFile.sendDataToArduino (fin ((-7 : ℤ) : ℚ)) (fin ((180 : ℤ) : ℚ))
      = some (toString (-7 : ℤ) ++ "," ++ toString (180 : ℤ) ++ "\n") :=
  (C12_line_format (-7) 180 (by decide) (by decide)).1

/-- The line built from two natural numbers up to `2^53` decodes to them. -/
theorem csvLine_decodes (a b : ℕ) (ha : a ≤ 2 ^ 53) (hb : b ≤ 2 ^ 53) :
    ∃ line : String, csvLine (fin (a : ℚ)) (fin (b : ℚ)) = some line ∧
      splitOnComma (dropTrailingNewline line.data) = [(Nat.repr a).data, (Nat.repr b).data] ∧
      decodeLine line = [some a, some b] := by
  have hsplit : splitOnComma (dropTrailingNewline
      (Nat.repr a ++ "," ++ Nat.repr b ++ "\n").data)
      = [(Nat.repr a).data, (Nat.repr b).data] := by
    have h1 : (Nat.repr a ++ "," ++ Nat.repr b ++ "\n").data
        = ((Nat.repr a).data ++ ',' :: (Nat.repr b).data) ++ ['\n'] := by
      simp [String.data_append]
    rw [h1, dropTrailingNewline_append,
      splitOnComma_append_comma _ _ (comma_not_mem_repr a),
      splitOnComma_of_not_mem _ (comma_not_mem_repr b)]
  refine ⟨Nat.repr a ++ "," ++ Nat.repr b ++ "\n", ?_, hsplit, ?_⟩
  · simp only [csvLine, numberToString_natCast a ha, numberToString_natCast b hb]
  · simp only [decodeLine, hsplit, List.map, (repr_reads_back a).2, (repr_reads_back b).2]

/-- C13: for all integers `a` and `b` of 0..255, removing the trailing newline of the
line built by `sendDataToArduino` (template sketch and slider sketch) and splitting
it on `,` gives exactly the two numerals of `a` and `b`, which parse back to `a` and
`b` in that order. -/
theorem C13_round_trip (a b : ℕ) (ha : a ≤ 255) (hb : b ≤ 255) :
    ∃ line : String,
      BaseFile.sendDataToArduino (fin (a : ℚ)) (fin (b : ℚ)) = some line ∧
      Sliders.sendDataToArduino (fin (a : ℚ)) (fin (b : ℚ)) = some line ∧
      splitOnComma (dropTrailingNewline line.data) = [(Nat.repr a).data, (Nat.repr b).data] ∧
      decodeLine line = [some a, some b] := by
  obtain ⟨line, h1, h2, h3⟩ := csvLine_decodes a b
    (le_trans ha (by norm_num)) (le_trans hb (by norm_num))
  exact ⟨line, h1, h1, h2, h3⟩

/-- Witness for C13: the pair 10 and 255 of the template sketch. -/
theorem C13_round_trip_witness :
    ∃ line : String,
      BaseFile.sendDataToArduino (fin ((10 : ℕ) : ℚ)) (fin ((255 : ℕ) : ℚ)) = some line ∧
      Sliders.sendDataToArduino (fin ((10 : ℕ) : ℚ)) (fin ((255 : ℕ) : ℚ)) = some line ∧
      splitOnComma (dropTrailingNewline line.data)
        = [(Nat.repr 10).data, (Nat.repr 255).data] ∧
      decodeLine line = [some 10, some 255] :=
  C13_round_trip 10 255 (by norm_num) (by norm_num)

end WebSerial

namespace WebSerial

open JsNum

/-! ## Gating of the writes -/

/-- C14: in a tick of `draw` (servo class sketch and template sketch) in which
`port.opened()` is false nothing is written and the variables of the sketch are
unchanged; a tick that writes is a tick in which `port.opened()` is true. -/
theorem C14_write_only_when_opened :
    (∀ (k : ServoClass.Sketch) (millis1 millis2 : JsNum),
      (ServoClass.draw k false millis1 millis2).written = [] ∧
      (ServoClass.draw k false millis1 millis2).state = k) ∧
    (∀ (k : ServoClass.Sketch) (opened : Bool) (millis1 millis2 : JsNum),
      (ServoClass.draw k opened millis1 millis2).written ≠ [] → opened = true) ∧
    (∀ k : BaseFile.Sketch,
      (BaseFile.draw k false).written = [] ∧ (BaseFile.draw k false).state = k) ∧
    (∀ (k : BaseFile.Sketch) (opened : Bool),
      (BaseFile.draw k opened).written ≠ [] → opened = true) := by
  refine ⟨fun k m1 m2 => ⟨rfl, rfl⟩, ?_, fun k => ⟨rfl, rfl⟩, ?_⟩
  · intro k opened m1 m2 h
    cases opened with
    | true => rfl
    | false => exact absurd rfl h
  · intro k opened h
    cases opened with
    | true => rfl
    | false => exact absurd rfl h

/-- C15: in the two pose sketches, a tick without a signal value (no pose, the
selected keypoint missing, or its confidence not above `confidenceThreshold`)
writes nothing, whether the port is opened or not, and in `webSerial_Point_at_You`
leaves `servoVal` unchanged. -/
theorem C15_no_value_no_write (lo hi thr width height : JsNum) (index : ℕ)
    (opened : Bool) (servoVal : Option JsNum) :
    (PointAtYou.draw lo hi [] index thr width opened servoVal
        = { state := servoVal, written := [] } ∧
      BodyPointToLED.draw [] index thr width height opened = []) ∧
    (∀ (pose : Pose) (rest : List Pose), pose.keypoints.length ≤ index →
      PointAtYou.draw lo hi (pose :: rest) index thr width opened servoVal
        = { state := servoVal, written := [] } ∧
      BodyPointToLED.draw (pose :: rest) index thr width height opened = []) ∧
    (∀ (pose : Pose) (rest : List Pose) (point : Keypoint),
      pose.keypoints[index]? = some point → JsNum.gt point.confidence thr = false →
      PointAtYou.draw lo hi (pose :: rest) index thr width opened servoVal
        = { state := servoVal, written := [] } ∧
      BodyPointToLED.draw (pose :: rest) index thr width height opened = []) := by
  refine ⟨⟨rfl, rfl⟩, ?_, ?_⟩
  · intro pose rest hlen
    have hnone : pose.keypoints[index]? = none := List.getElem?_eq_none hlen
    constructor
    · simp [PointAtYou.draw, PointAtYou.getKeypoint, hnone]
    · simp [BodyPointToLED.draw, Nat.not_lt.mpr hlen]
  · intro pose rest point hpoint hconf
    constructor
    · simp [PointAtYou.draw, PointAtYou.getKeypoint, hpoint, hconf]
    · simp [BodyPointToLED.draw, hpoint, hconf]

/-- Witness for C15: one pose whose only keypoint has the confidence 0.1, with the
threshold 0.2, the port being opened. -/
theorem C15_no_value_no_write_witness :
    PointAtYou.draw (fin 0) (fin 180) [⟨[⟨fin 320, fin 240, fin (1 / 10)⟩]⟩] 0
        (fin (1 / 5)) (fin 640) true (some (fin 90))
      = { state := some (fin 90), written := [] } ∧
    BodyPointToLED.draw [⟨[⟨fin 320, fin 240, fin (1 / 10)⟩]⟩] 0
        (fin (1 / 5)) (fin 640) (fin 480) true = [] :=
  (C15_no_value_no_write (fin 0) (fin 180) (fin (1 / 5)) (fin 640) (fin 480) 0 true
    (some (fin 90))).2.2 ⟨[⟨fin 320, fin 240, fin (1 / 10)⟩]⟩ []
    ⟨fin 320, fin 240, fin (1 / 10)⟩ rfl
    (by simp [JsNum.gt, JsNum.lt]; norm_num)

end WebSerial

namespace WebSerial

open JsNum

/-! ## Mapping a position to a range -/

theorem map_fin (n start1 stop1 start2 stop2 : ℚ) (h : stop1 - start1 ≠ 0) :
    map (fin n) (fin start1) (fin stop1) (fin start2) (fin stop2)
      = fin ((n - start1) / (stop1 - start1) * (stop2 - start2) + start2) := by
  simp [map, JsNum.sub_fin, JsNum.div_fin _ _ h, JsNum.mul_fin, JsNum.add_fin]

theorem constrain_fin_fin (v lo hi : ℚ) :
    constrain (fin v) (fin lo) (fin hi) = fin (Max.max (Min.min v hi) lo) := by
  simp [constrain, JsNum.mathMin_fin, JsNum.mathMax_fin]

theorem constrain_fin_bounds (v lo hi : ℚ) (h : lo ≤ hi) :
    lo ≤ Max.max (Min.min v hi) lo ∧ Max.max (Min.min v hi) lo ≤ hi :=
  ⟨le_max_right _ _, max_le (min_le_right _ _) h⟩

/-- A non-negative integer value is the value of a natural number. -/
theorem fin_intCast_toNat (z : ℤ) (h : 0 ≤ z) : fin ((z : ℤ) : ℚ) = fin ((z.toNat : ℕ) : ℚ) := by
  congr 1
  have : ((z.toNat : ℕ) : ℤ) = z := Int.toNat_of_nonneg h
  exact_mod_cast this.symm

/-- Rounding a finite value of `[0, hi]` gives a natural number up to `hi`. -/
theorem round_fin_nat (c : ℚ) (hi : ℕ) (h0 : 0 ≤ c) (h1 : c ≤ hi) :
    ∃ n : ℕ, n ≤ hi ∧ round (fin c) = fin (n : ℚ) := by
  obtain ⟨hlo, hhi⟩ := round_fin_range c 0 hi (by simpa using h0) (by simpa using h1)
  refine ⟨⌊c + 1 / 2⌋.toNat, by omega, ?_⟩
  rw [(round_fin_nearest c).1, fin_intCast_toNat _ hlo]

/-- C16: for every finite `xPos`, every canvas width above 0 and every finite pair
`SERVO_MIN`, `SERVO_MAX` in either order, `updateServoValue` leaves in `servoVal` a
finite value between the smaller and the larger of the two; with the pair (180, 0)
the middle of the canvas gives 90. -/
theorem C16_updateServoValue_range (xPos width servoMin servoMax : ℚ) (hw : 0 < width) :
    (∃ v : ℚ, PointAtYou.updateServoValue (fin xPos) (fin width) (fin servoMin) (fin servoMax)
        = fin v ∧ Min.min servoMin servoMax ≤ v ∧ v ≤ Max.max servoMin servoMax) ∧
    PointAtYou.updateServoValue (fin (width / 2)) (fin width) (fin 180) (fin 0) = fin 90 := by
  have hw0 : width - 0 ≠ 0 := by simpa using ne_of_gt hw
  have hval : ∀ x a b : ℚ,
      PointAtYou.updateServoValue (fin x) (fin width) (fin a) (fin b)
        = fin (Max.max (Min.min ((x - 0) / (width - 0) * (b - a) + a) (Max.max a b))
            (Min.min a b)) := by
    intro x a b
    simp only [PointAtYou.updateServoValue, ite_self, map_fin _ _ _ _ _ hw0, min, max,
      JsNum.mathMin_fin, JsNum.mathMax_fin, constrain_fin_fin]
  constructor
  · refine ⟨_, hval xPos servoMin servoMax, ?_⟩
    exact constrain_fin_bounds _ _ _ (le_trans (min_le_left _ _) (le_max_left _ _))
  · rw [hval]
    congr 1
    have h1 : (width / 2 - 0) / (width - 0) * ((0 : ℚ) - 180) + 180 = 90 := by
      field_simp
      ring
    rw [h1]
    norm_num

/-- Witness for C16: a point at 160 on a canvas 640 wide, with the pair (180, 0). -/
theorem C16_updateServoValue_range_witness :
    ∃ v : ℚ, PointAtYou.updateServoValue (fin 160) (fin 640) (fin 180) (fin 0) = fin v ∧
      Min.min (180 : ℚ) 0 ≤ v ∧ v ≤ Max.max (180 : ℚ) 0 :=
  (C16_updateServoValue_range 160 640 180 0 (by norm_num)).1

/-- C17: in `webSerial_mouseXY_to_Servo_Angle_CSV`, for every finite mouse position,
inside or outside the canvas, and every canvas width and height above 0, the two
values that `sendDataToArduino` puts on the line after `updateServoValues` are
integers of 0..180, written as decimal numerals. -/
theorem C17_servo_angle_line (mouseX mouseY width height : ℚ) (hw : 0 < width)
    (hh : 0 < height) :
    ∃ n1 n2 : ℕ, n1 ≤ 180 ∧ n2 ≤ 180 ∧
      round (ServoAngle.updateServoValues (fin mouseX) (fin mouseY) (fin width)
        (fin height)).1 = fin (n1 : ℚ) ∧
      round (ServoAngle.updateServoValues (fin mouseX) (fin mouseY) (fin width)
        (fin height)).2 = fin (n2 : ℚ) ∧
      ServoAngle.sendDataToArduino
        (ServoAngle.updateServoValues (fin mouseX) (fin mouseY) (fin width) (fin height)).1
        (ServoAngle.updateServoValues (fin mouseX) (fin mouseY) (fin width) (fin height)).2
        = some (Nat.repr n1 ++ "," ++ Nat.repr n2 ++ "\n") := by
  have hw0 : width - 0 ≠ 0 := by simpa using ne_of_gt hw
  have hh0 : height - 0 ≠ 0 := by simpa using ne_of_gt hh
  have hv : ServoAngle.updateServoValues (fin mouseX) (fin mouseY) (fin width) (fin height)
      = (fin (Max.max (Min.min ((mouseX - 0) / (width - 0) * (180 - 0) + 0) 180) 0),
         fin (Max.max (Min.min ((mouseY - 0) / (height - 0) * (180 - 0) + 0) 180) 0)) := by
    simp only [ServoAngle.updateServoValues, map_fin _ _ _ _ _ hw0, map_fin _ _ _ _ _ hh0,
      constrain_fin_fin]
  obtain ⟨b1l, b1u⟩ := constrain_fin_bounds
    ((mouseX - 0) / (width - 0) * (180 - 0) + 0) 0 180 (by norm_num)
  obtain ⟨b2l, b2u⟩ := constrain_fin_bounds
    ((mouseY - 0) / (height - 0) * (180 - 0) + 0) 0 180 (by norm_num)
  obtain ⟨n1, hn1, hr1⟩ := round_fin_nat _ 180 b1l (by exact_mod_cast b1u)
  obtain ⟨n2, hn2, hr2⟩ := round_fin_nat _ 180 b2l (by exact_mod_cast b2u)
  refine ⟨n1, n2, hn1, hn2, ?_, ?_, ?_⟩
  · rw [hv]; exact hr1
  · rw [hv]; exact hr2
  · rw [hv]
    simp only [ServoAngle.sendDataToArduino, hr1, hr2, csvLine,
      numberToString_natCast n1 (le_trans hn1 (by norm_num)),
      numberToString_natCast n2 (le_trans hn2 (by norm_num))]

/-- Witness for C17: the mouse left of and below a canvas of 640 by 480. -/
theorem C17_servo_angle_line_witness :
    ∃ n1 n2 : ℕ, n1 ≤ 180 ∧ n2 ≤ 180 ∧
      round (ServoAngle.updateServoValues (fin (-64)) (fin 960) (fin 640)
        (fin 480)).1 = fin (n1 : ℚ) ∧
      round (ServoAngle.updateServoValues (fin (-64)) (fin 960) (fin 640)
        (fin 480)).2 = fin (n2 : ℚ) ∧
      ServoAngle.sendDataToArduino
        (ServoAngle.updateServoValues (fin (-64)) (fin 960) (fin 640) (fin 480)).1
        (ServoAngle.updateServoValues (fin (-64)) (fin 960) (fin 640) (fin 480)).2
        = some (Nat.repr n1 ++ "," ++ Nat.repr n2 ++ "\n") :=
  C17_servo_angle_line (-64) 960 640 480 (by norm_num) (by norm_num)

end WebSerial

namespace WebSerial

open JsNum

/-- Rounding an integer value gives it back. -/
theorem round_fin_intCast (z : ℤ) : round (fin (z : ℚ)) = fin (z : ℚ) := by
  rw [(round_fin_nearest _).1]
  congr 2
  rw [Int.floor_eq_iff]
  constructor <;> linarith

/-- C18, evaluated on the code: with the mouse at (-640, 960) over a canvas of 640
by 480, `updateConvertedValues` gives -255 and 510, and `sendDataToArduino` writes
the line `-255,510`: neither value is in 0..255. -/
theorem C18_mouse_outside_canvas :
    MouseToLED.updateConvertedValues (fin (-640)) (fin 960) (fin 640) (fin 480)
      = (fin (-255), fin 510) ∧
    MouseToLED.sendDataToArduino (fin (-255)) (fin 510) = some "-255,510\n" := by
  constructor
  · have h1 : (640 : ℚ) - 0 ≠ 0 := by norm_num
    have h2 : (480 : ℚ) - 0 ≠ 0 := by norm_num
    simp only [MouseToLED.updateConvertedValues, map_fin _ _ _ _ _ h1, map_fin _ _ _ _ _ h2]
    norm_num
  · have h1 := round_fin_intCast (-255)
    have h2 := round_fin_intCast 510
    have h3 := csvLine_intCast (-255) 510 (by decide) (by decide)
    push_cast at h1 h2 h3
    rw [MouseToLED.sendDataToArduino, h1, h2, h3]
    decide

/-- In `webSerial_mouse_to_LED_CSV`, while the mouse is over the canvas the two
values on the line are integers of 0..255. -/
theorem MouseToLED_inside_canvas (mouseX mouseY width height : ℚ) (hw : 0 < width)
    (hh : 0 < height) (hx0 : 0 ≤ mouseX) (hx1 : mouseX ≤ width) (hy0 : 0 ≤ mouseY)
    (hy1 : mouseY ≤ height) :
    ∃ n1 n2 : ℕ, n1 ≤ 255 ∧ n2 ≤ 255 ∧
      MouseToLED.sendDataToArduino
        (MouseToLED.updateConvertedValues (fin mouseX) (fin mouseY) (fin width) (fin height)).1
        (MouseToLED.updateConvertedValues (fin mouseX) (fin mouseY) (fin width) (fin height)).2
        = some (Nat.repr n1 ++ "," ++ Nat.repr n2 ++ "\n") := by
  have hw0 : width - 0 ≠ 0 := by simpa using ne_of_gt hw
  have hh0 : height - 0 ≠ 0 := by simpa using ne_of_gt hh
  have hv : MouseToLED.updateConvertedValues (fin mouseX) (fin mouseY) (fin width) (fin height)
      = (fin ((mouseX - 0) / (width - 0) * (255 - 0) + 0),
         fin ((mouseY - 0) / (height - 0) * (255 - 0) + 0)) := by
    simp only [MouseToLED.updateConvertedValues, map_fin _ _ _ _ _ hw0, map_fin _ _ _ _ _ hh0]
  have hx : 0 ≤ (mouseX - 0) / (width - 0) ∧ (mouseX - 0) / (width - 0) ≤ 1 := by
    rw [sub_zero, sub_zero]
    exact ⟨div_nonneg hx0 (le_of_lt hw), (div_le_one hw).mpr hx1⟩
  have hy : 0 ≤ (mouseY - 0) / (height - 0) ∧ (mouseY - 0) / (height - 0) ≤ 1 := by
    rw [sub_zero, sub_zero]
    exact ⟨div_nonneg hy0 (le_of_lt hh), (div_le_one hh).mpr hy1⟩
  obtain ⟨n1, hn1, hr1⟩ := round_fin_nat ((mouseX - 0) / (width - 0) * (255 - 0) + 0) 255
    (by nlinarith [hx.1]) (by push_cast; nlinarith [hx.2])
  obtain ⟨n2, hn2, hr2⟩ := round_fin_nat ((mouseY - 0) / (height - 0) * (255 - 0) + 0) 255
    (by nlinarith [hy.1]) (by push_cast; nlinarith [hy.2])
  refine ⟨n1, n2, hn1, hn2, ?_⟩
  rw [hv]
  simp only [MouseToLED.sendDataToArduino, hr1, hr2, csvLine,
    numberToString_natCast n1 (le_trans hn1 (by norm_num)),
    numberToString_natCast n2 (le_trans hn2 (by norm_num))]

/-! ## The wave angle -/

/-- At the time 0, with limits 10.6 and 10.8 around the centre 10.7, every function
`sin` that is 0 at the angle 0 makes `getWaveAngle` return 11. -/
theorem getWaveAngle_at_time_zero (sin : JsNum → JsNum) (h : sin (fin 0) = fin 0) :
    ServoWiggle.getWaveAngle sin (fin 0) (fin 2000) (fin (53 / 5)) (fin (54 / 5))
      (fin (107 / 10)) = fin 11 := by
  have h2000 : (2000 : ℚ) ≠ 0 := by norm_num
  have h2 : (2 : ℚ) ≠ 0 := by norm_num
  simp only [ServoWiggle.getWaveAngle, JsNum.div_fin _ _ h2000, JsNum.mul_fin, zero_div,
    mul_zero, h, JsNum.sub_fin, JsNum.div_fin _ _ h2, zero_mul, JsNum.add_fin, zero_add,
    constrain_fin_fin, (round_fin_nearest _).1]
  congr 1
  have hv : Max.max (Min.min (107 / 10 : ℚ) (54 / 5)) (53 / 5) = 107 / 10 := by
    rw [min_eq_left (by norm_num), max_eq_left (by norm_num)]
  rw [hv]
  have : ⌊(107 / 10 : ℚ) + 1 / 2⌋ = 11 := by
    rw [Int.floor_eq_iff]
    constructor <;> norm_num
  rw [this]
  norm_num

/-- C19, evaluated on the code: `getWaveAngle(2000, 10.6, 10.8, 10.7)` at the time 0
(where the angle is 0 and the sine is 0) returns 11, which is above the upper limit
10.8: the value 10.7 is inside the limits, and the rounding that follows the
clamp takes it out of them. -/
theorem C19_getWaveAngle_above_limit :
    ServoWiggle.getWaveAngle ServoWiggle.sinAtZero (fin 0) (fin 2000) (fin (53 / 5))
      (fin (54 / 5)) (fin (107 / 10)) = fin 11 ∧
    constrain (fin (107 / 10)) (fin (53 / 5)) (fin (54 / 5)) = fin (107 / 10) ∧
    JsNum.le (fin 11) (fin (54 / 5)) = false := by
  refine ⟨getWaveAngle_at_time_zero ServoWiggle.sinAtZero
    (by simp [ServoWiggle.sinAtZero]), ?_, ?_⟩
  · rw [constrain_fin_fin, min_eq_left (by norm_num), max_eq_left (by norm_num)]
  · simp [JsNum.le]
    norm_num

/-- With limits that are integers, the rounding cannot leave them: for every finite
time, every non-zero `speedMS`, every finite `centerAngle` and all integer limits
`minAngle <= maxAngle`, whatever finite value `sin` takes, `getWaveAngle` returns
an integer within the limits. -/
theorem getWaveAngle_integer_limits (sin : JsNum → JsNum)
    (hsin : ∀ x : ℚ, ∃ y : ℚ, sin (fin x) = fin y)
    (millis speedMS centerAngle : ℚ) (minAngle maxAngle : ℤ)
    (hs : speedMS ≠ 0) (hle : minAngle ≤ maxAngle) :
    ∃ r : ℤ, ServoWiggle.getWaveAngle sin (fin millis) (fin speedMS) (fin (minAngle : ℚ))
        (fin (maxAngle : ℚ)) (fin centerAngle) = fin (r : ℚ) ∧
      minAngle ≤ r ∧ r ≤ maxAngle := by
  obtain ⟨y, hy⟩ := hsin (360 * (millis / speedMS))
  have h2 : (2 : ℚ) ≠ 0 := by norm_num
  have hleq : (minAngle : ℚ) ≤ maxAngle := by exact_mod_cast hle
  have hval : ServoWiggle.getWaveAngle sin (fin millis) (fin speedMS) (fin (minAngle : ℚ))
      (fin (maxAngle : ℚ)) (fin centerAngle)
      = round (fin (Max.max (Min.min (y * ((maxAngle - minAngle) / 2) + centerAngle) maxAngle)
          minAngle)) := by
    simp only [ServoWiggle.getWaveAngle, JsNum.div_fin _ _ hs, JsNum.mul_fin, hy,
      JsNum.sub_fin, JsNum.div_fin _ _ h2, JsNum.add_fin, constrain_fin_fin]
  obtain ⟨bl, bu⟩ := constrain_fin_bounds
    (y * (((maxAngle : ℚ) - minAngle) / 2) + centerAngle) minAngle maxAngle hleq
  obtain ⟨rl, ru⟩ := round_fin_range _ minAngle maxAngle bl bu
  exact ⟨_, by rw [hval, (round_fin_nearest _).1], rl, ru⟩

end WebSerial

namespace WebSerial

open JsNum

/-! ## Cycling through the body points -/

/-- The remainder `a % 17` of JavaScript on a non-negative integer is the usual
one. -/
theorem tmod_seventeen (a : ℤ) (h : 0 ≤ a) : Int.tmod a 17 = a % 17 :=
  Int.tmod_eq_emod h (by norm_num)

theorem pointAtYou_keyPressed_range (i : ℤ) (showVideo : Bool) (e : KeyEvent)
    (h0 : 0 ≤ i) (h1 : i ≤ 16) :
    0 ≤ (PointAtYou.keyPressed i showVideo e).1 ∧
    (PointAtYou.keyPressed i showVideo e).1 ≤ 16 := by
  simp only [PointAtYou.keyPressed]
  by_cases hl : e.keyCode = LEFT_ARROW
  · have hr : ¬ LEFT_ARROW = RIGHT_ARROW := by decide
    simp only [hl, hr, if_true, if_false]
    rw [tmod_seventeen _ (by omega)]
    omega
  · by_cases hr : e.keyCode = RIGHT_ARROW
    · simp only [hl, hr, if_true, if_false]
      rw [tmod_seventeen _ (by omega)]
      omega
    · simp only [hl, hr, if_false]
      exact ⟨h0, h1⟩

theorem bodyPointToLED_keyPressed_range (i : ℤ) (showVideo : Bool) (e : KeyEvent)
    (h0 : 0 ≤ i) (h1 : i ≤ 16) :
    0 ≤ (BodyPointToLED.keyPressed i showVideo e).1 ∧
    (BodyPointToLED.keyPressed i showVideo e).1 ≤ 16 := by
  simp only [BodyPointToLED.keyPressed]
  split_ifs
  · rw [tmod_seventeen _ (by omega)]
    omega
  · rw [tmod_seventeen _ (by omega)]
    omega
  · exact ⟨h0, h1⟩
  · exact ⟨h0, h1⟩

theorem pointAtYou_keyPressed_foldl_range (events : List KeyEvent) :
    ∀ st : ℤ × Bool, 0 ≤ st.1 → st.1 ≤ 16 →
      0 ≤ (events.foldl (fun st e => PointAtYou.keyPressed st.1 st.2 e) st).1 ∧
      (events.foldl (fun st e => PointAtYou.keyPressed st.1 st.2 e) st).1 ≤ 16 := by
  induction events with
  | nil => intro st h0 h1; exact ⟨h0, h1⟩
  | cons e rest ih =>
      intro st h0 h1
      obtain ⟨k0, k1⟩ := pointAtYou_keyPressed_range st.1 st.2 e h0 h1
      exact ih _ k0 k1

theorem bodyPointToLED_keyPressed_foldl_range (events : List KeyEvent) :
    ∀ st : ℤ × Bool, 0 ≤ st.1 → st.1 ≤ 16 →
      0 ≤ (events.foldl (fun st e => BodyPointToLED.keyPressed st.1 st.2 e) st).1 ∧
      (events.foldl (fun st e => BodyPointToLED.keyPressed st.1 st.2 e) st).1 ≤ 16 := by
  induction events with
  | nil => intro st h0 h1; exact ⟨h0, h1⟩
  | cons e rest ih =>
      intro st h0 h1
      obtain ⟨k0, k1⟩ := bodyPointToLED_keyPressed_range st.1 st.2 e h0 h1
      exact ih _ k0 k1

/-- C20: starting from 0, after any sequence of key presses handled by `keyPressed`
(in both pose sketches) the index of the tracked body point is an integer of 0..16;
the key for the next point goes from 16 to 0 and otherwise adds 1, the key for the
previous point goes from 0 to 16 and otherwise subtracts 1, and any other key leaves
the index as it is. -/
theorem C20_body_point_index_cycles :
    (∀ (events : List KeyEvent) (showVideo : Bool),
      0 ≤ (events.foldl (fun st e => PointAtYou.keyPressed st.1 st.2 e) (0, showVideo)).1 ∧
      (events.foldl (fun st e => PointAtYou.keyPressed st.1 st.2 e) (0, showVideo)).1 ≤ 16 ∧
      0 ≤ (events.foldl (fun st e => BodyPointToLED.keyPressed st.1 st.2 e)
        (0, showVideo)).1 ∧
      (events.foldl (fun st e => BodyPointToLED.keyPressed st.1 st.2 e)
        (0, showVideo)).1 ≤ 16) ∧
    (∀ (i : ℤ) (showVideo : Bool) (key : String), 0 ≤ i → i ≤ 16 →
      (PointAtYou.keyPressed i showVideo ⟨key, RIGHT_ARROW⟩).1 = (if i = 16 then 0 else i + 1) ∧
      (PointAtYou.keyPressed i showVideo ⟨key, LEFT_ARROW⟩).1 = (if i = 0 then 16 else i - 1) ∧
      (BodyPointToLED.keyPressed i showVideo ⟨key, UP_ARROW⟩).1
        = (if i = 16 then 0 else i + 1) ∧
      (BodyPointToLED.keyPressed i showVideo ⟨key, DOWN_ARROW⟩).1
        = (if i = 0 then 16 else i - 1)) ∧
    (∀ (i : ℤ) (showVideo : Bool) (e : KeyEvent),
      (e.keyCode ≠ LEFT_ARROW → e.keyCode ≠ RIGHT_ARROW →
        (PointAtYou.keyPressed i showVideo e).1 = i) ∧
      (e.keyCode ≠ UP_ARROW → e.keyCode ≠ DOWN_ARROW →
        (BodyPointToLED.keyPressed i showVideo e).1 = i)) := by
  refine ⟨?_, ?_, ?_⟩
  · intro events showVideo
    obtain ⟨a0, a1⟩ := pointAtYou_keyPressed_foldl_range events (0, showVideo)
      (le_refl _) (by norm_num)
    obtain ⟨b0, b1⟩ := bodyPointToLED_keyPressed_foldl_range events (0, showVideo)
      (le_refl _) (by norm_num)
    exact ⟨a0, a1, b0, b1⟩
  · intro i showVideo key h0 h1
    have hR : ¬ RIGHT_ARROW = LEFT_ARROW := by decide
    have hD : ¬ DOWN_ARROW = UP_ARROW := by decide
    simp only [PointAtYou.keyPressed, BodyPointToLED.keyPressed, hR, hD, if_true, if_false,
      tmod_seventeen (i + 1) (by omega), tmod_seventeen (i - 1 + 17) (by omega)]
    refine ⟨?_, ?_, ?_, ?_⟩ <;> split_ifs <;> omega
  · intro i showVideo e
    constructor
    · intro hl hr
      simp [PointAtYou.keyPressed, hl, hr]
    · intro hu hd
      simp only [BodyPointToLED.keyPressed, hu, hd, if_false]
      split_ifs <;> rfl

/-- Witness for C20: from the index 16, the next point is 0 and the previous point
is 15, in both sketches. -/
theorem C20_body_point_index_cycles_witness :
    (PointAtYou.keyPressed 16 true ⟨"Arrow", RIGHT_ARROW⟩).1
      = (if (16 : ℤ) = 16 then 0 else 16 + 1) ∧
    (PointAtYou.keyPressed 16 true ⟨"Arrow", LEFT_ARROW⟩).1
      = (if (16 : ℤ) = 0 then 16 else 16 - 1) ∧
    (BodyPointToLED.keyPressed 16 true ⟨"Arrow", UP_ARROW⟩).1
      = (if (16 : ℤ) = 16 then 0 else 16 + 1) ∧
    (BodyPointToLED.keyPressed 16 true ⟨"Arrow", DOWN_ARROW⟩).1
      = (if (16 : ℤ) = 0 then 16 else 16 - 1) :=
  C20_body_point_index_cycles.2.1 16 true "Arrow" (by norm_num) (by norm_num)

/-- With a keypoint above the threshold and the port opened, `draw` of
`webSerial_Point_at_You` updates `servoVal` and writes one line. -/
theorem pointAtYou_draw_with_value (lo hi thr width : JsNum) (index : ℕ)
    (servoVal : Option JsNum) (pose : Pose) (rest : List Pose) (point : Keypoint)
    (hp : pose.keypoints[index]? = some point) (hc : JsNum.gt point.confidence thr = true) :
    PointAtYou.draw lo hi (pose :: rest) index thr width true servoVal
      = { state := some (PointAtYou.updateServoValue point.x width lo hi)
          written := [PointAtYou.sendDataToArduino
            (PointAtYou.updateServoValue point.x width lo hi)] } := by
  simp [PointAtYou.draw, PointAtYou.getKeypoint, hp, hc]

end WebSerial

namespace WebSerial

open JsNum Servo

/-! ## A servo at rest is at its target -/

/-- The property that a servo that is not moving has `currentAngle` equal to
`targetAngle` is kept by every call. -/
theorem rest_at_target_step (s : Servo) (c : ℚ × Call)
    (h : s.isMoving = false → s.currentAngle = s.targetAngle) :
    (s.step c).isMoving = false → (s.step c).currentAngle = (s.step c).targetAngle := by
  unfold Servo.step
  cases c.2 with
  | setTarget t =>
      simp only [Servo.setTarget]
      split_ifs
      · intro hm; simp at hm
      · exact h
  | update =>
      simp only [Servo.update]
      split_ifs with hm hp
      · intro _; rfl
      · intro hm2; simp [hm] at hm2
      · exact h

theorem rest_at_target_run (calls : List (ℚ × Call)) :
    ∀ s : Servo, (s.isMoving = false → s.currentAngle = s.targetAngle) →
      (s.run calls).isMoving = false → (s.run calls).currentAngle = (s.run calls).targetAngle := by
  induction calls with
  | nil => intro s h; exact h
  | cons c rest ih =>
      intro s h
      exact ih (s.step c) (rest_at_target_step s c h)

theorem JsNum.strictEq_self (x : JsNum) (h : x ≠ nan) : strictEq x x = true := by
  cases x <;> simp_all [strictEq]

/-- C23: in every state reached from the constructor (with any arguments) by any
sequence of `setTarget` and `update` calls, a servo whose `isMoving` is false has
`currentAngle` equal to `targetAngle`: the two fields hold the same value, and
`currentAngle === targetAngle` is true unless that value is `NaN`. -/
theorem C23_rest_at_target (startAngle moveSpeed : JsNum) (calls : List (ℚ × Call))
    (h : ((Servo.constructor startAngle moveSpeed).run calls).isMoving = false) :
    ((Servo.constructor startAngle moveSpeed).run calls).currentAngle
      = ((Servo.constructor startAngle moveSpeed).run calls).targetAngle ∧
    (((Servo.constructor startAngle moveSpeed).run calls).currentAngle ≠ nan →
      strictEq ((Servo.constructor startAngle moveSpeed).run calls).currentAngle
        ((Servo.constructor startAngle moveSpeed).run calls).targetAngle = true) := by
  have key := rest_at_target_run calls (Servo.constructor startAngle moveSpeed)
    (fun _ => rfl) h
  refine ⟨key, fun hn => ?_⟩
  rw [← key]
  exact JsNum.strictEq_self _ hn

/-- Witness for C23: a servo built at 90 with a move time of 1000 ms, asked for 45 at
the time 0 and updated at the time 1000, is at rest at 45. -/
theorem C23_rest_at_target_witness :
    ((Servo.constructor (fin 90) (fin 1000)).run
      [(0, Call.setTarget (fin 45)), (1000, Call.update)]).currentAngle
      = ((Servo.constructor (fin 90) (fin 1000)).run
      [(0, Call.setTarget (fin 45)), (1000, Call.update)]).targetAngle :=
  (C23_rest_at_target (fin 90) (fin 1000) [(0, Call.setTarget (fin 45)), (1000, Call.update)]
    (by
      simp [Servo.run, Servo.step, Servo.update, Servo.setTarget, Servo.constructor,
        constrain, mathMin, mathMax, JsNum.le, strictNe, strictEq, min, lerp, JsNum.div,
        JsNum.sub, JsNum.add, JsNum.neg, JsNum.mul, ge]
      norm_num)).1

end WebSerial

namespace WebSerial

open JsNum Servo

/-! ## Bounds and no overshoot -/

theorem inRange_fin (q : ℚ) : inRange (fin q) = true ↔ 0 ≤ q ∧ q ≤ 180 := by
  simp [inRange, JsNum.le_fin]

theorem inRange_finite (x : JsNum) (h : inRange x = true) :
    ∃ q : ℚ, x = fin q ∧ 0 ≤ q ∧ q ≤ 180 := by
  cases x with
  | fin q => exact ⟨q, rfl, (inRange_fin q).mp h⟩
  | posInf => simp [inRange, JsNum.le] at h
  | negInf => simp [inRange, JsNum.le] at h
  | nan => simp [inRange, JsNum.le] at h

theorem isBetween_fin (c a b : ℚ) :
    isBetween (fin c) (fin a) (fin b) = true ↔ Min.min a b ≤ c ∧ c ≤ Max.max a b := by
  simp [isBetween, JsNum.mathMin_fin, JsNum.mathMax_fin, JsNum.le_fin]

/-- The method `update` changes neither `moveSpeed`, `moveStartTime` nor
`moveStartAngle`. -/
theorem update_segment (s : Servo) (now : JsNum) :
    (s.update now).moveSpeed = s.moveSpeed ∧
    (s.update now).moveStartTime = s.moveStartTime ∧
    (s.update now).moveStartAngle = s.moveStartAngle := by
  simp only [Servo.update]
  split_ifs <;> exact ⟨rfl, rfl, rfl⟩

/-- A point of the segment from `sa` to `ta` at a progress of `[0,1]` lies between
the two ends. -/
theorem lerp_between (sa ta p : ℚ) (h0 : 0 ≤ p) (h1 : p ≤ 1) :
    Min.min sa ta ≤ sa + (ta - sa) * p ∧ sa + (ta - sa) * p ≤ Max.max sa ta := by
  rcases le_total sa ta with h | h
  · rw [min_eq_left h, max_eq_right h]
    constructor
    · nlinarith [mul_nonneg (sub_nonneg.mpr h) h0]
    · nlinarith [mul_nonneg (sub_nonneg.mpr h) (sub_nonneg.mpr h1)]
  · rw [min_eq_right h, max_eq_left h]
    constructor
    · nlinarith [mul_nonneg (sub_nonneg.mpr h) (sub_nonneg.mpr h1)]
    · nlinarith [mul_nonneg (sub_nonneg.mpr h) h0]

/-- What is between two values of `[0,180]` is in `[0,180]`. -/
theorem between_in_range (c a b : ℚ) (ha : 0 ≤ a ∧ a ≤ 180) (hb : 0 ≤ b ∧ b ≤ 180)
    (h : Min.min a b ≤ c ∧ c ≤ Max.max a b) : 0 ≤ c ∧ c ≤ 180 :=
  ⟨le_trans (le_min ha.1 hb.1) h.1, le_trans h.2 (max_le ha.2 hb.2)⟩

/-- The method `setTarget` with a target other than `NaN`, on a servo whose three
angles lie in `[0,180]`: the three angles still do, and `currentAngle` lies between
the two others exactly when the call starts a movement or it did before. -/
theorem setTarget_bounds (s : Servo) (hr : s.anglesInRange = true) (now t : JsNum)
    (ht : t ≠ nan) :
    (s.setTarget now t).anglesInRange = true ∧
    ((s.setTarget now t).noOvershoot = true ↔
      (strictNe (constrain t (fin 0) (fin 180)) s.currentAngle = true ∨
        s.noOvershoot = true)) := by
  have hr2 := hr
  simp only [Servo.anglesInRange, Bool.and_eq_true] at hr2
  obtain ⟨c, hc, hc01⟩ := inRange_finite _ hr2.1.1
  by_cases hne : strictNe (constrain t (fin 0) (fin 180)) s.currentAngle = true
  · obtain ⟨q, hq, hq0, hq1⟩ := constrain_range t ht
    have hb : (s.setTarget now t).noOvershoot = true := by
      rw [setTarget_of_strictNe s now t hne, hq, hc]
      simp only [Servo.noOvershoot, isBetween_fin]
      exact ⟨min_le_left _ _, le_max_left _ _⟩
    refine ⟨?_, fun _ => Or.inl hne, fun _ => hb⟩
    rw [setTarget_of_strictNe s now t hne, hq, hc]
    simp only [Servo.anglesInRange, Bool.and_eq_true, inRange_fin]
    exact ⟨⟨hc01, hc01⟩, hq0, hq1⟩
  · have heq : strictEq (constrain t (fin 0) (fin 180)) s.currentAngle = true := by
      simpa [strictNe] using hne
    rw [setTarget_of_strictEq s now t heq]
    exact ⟨hr, fun h => Or.inr h, fun h => h.resolve_left hne⟩

/-- The method `update` at a time not earlier than `moveStartTime`, with a move time
above 0, on a servo whose three angles lie in `[0,180]` and that is at its target
when it is at rest: the three angles still lie in `[0,180]` and `currentAngle` lies
between the two others. -/
theorem update_bounds (s : Servo) (hr : s.anglesInRange = true)
    (hrest : s.isMoving = false → s.currentAngle = s.targetAngle)
    (d t0 now : ℚ) (hd : s.moveSpeed = fin d) (hd0 : 0 < d)
    (ht0 : s.moveStartTime = fin t0) (hnow : t0 ≤ now) :
    (s.update (fin now)).anglesInRange = true ∧ (s.update (fin now)).noOvershoot = true := by
  have hr2 := hr
  simp only [Servo.anglesInRange, Bool.and_eq_true] at hr2
  obtain ⟨sa, hsa, hsa01⟩ := inRange_finite _ hr2.1.2
  obtain ⟨ta, hta, hta01⟩ := inRange_finite _ hr2.2
  by_cases hm : s.isMoving = true
  · have hcur := update_currentAngle_fin s sa ta t0 d now hd0 hm hd ht0 hsa hta
    have hp0 : 0 ≤ Min.min ((now - t0) / d) 1 :=
      le_min (div_nonneg (by linarith) (le_of_lt hd0)) (by norm_num)
    have hp1 : Min.min ((now - t0) / d) 1 ≤ 1 := min_le_right _ _
    have hbet := lerp_between sa ta _ hp0 hp1
    have hin := between_in_range _ sa ta hsa01 hta01 hbet
    simp only [Servo.anglesInRange, Servo.noOvershoot, Bool.and_eq_true, hcur,
      (update_segment s (fin now)).2.2, update_targetAngle, hsa, hta, inRange_fin,
      isBetween_fin]
    exact ⟨⟨⟨hin, hsa01⟩, hta01⟩, hbet⟩
  · have hs : s.update (fin now) = s := by simp [Servo.update, hm]
    have hct : s.currentAngle = fin ta := by
      rw [hrest (by simpa using hm), hta]
    rw [hs]
    refine ⟨hr, ?_⟩
    simp only [Servo.noOvershoot, hct, hsa, hta, isBetween_fin]
    exact ⟨min_le_right _ _, le_max_right _ _⟩

theorem segmentInv_mono {s : Servo} {lo hi : ℚ} (h : SegmentInv s lo) (hle : lo ≤ hi) :
    SegmentInv s hi := by
  obtain ⟨hd, hm, hk⟩ := h
  refine ⟨hd, fun hmv => ?_, hk⟩
  obtain ⟨t0, ht0, hlo⟩ := hm hmv
  exact ⟨t0, ht0, le_trans hlo hle⟩

theorem segmentInv_setTarget {s : Servo} {lo : ℚ} (h : SegmentInv s lo) (now : ℚ)
    (hlo : lo ≤ now) (t : JsNum) : SegmentInv (s.setTarget (fin now) t) now := by
  by_cases hne : strictNe (constrain t (fin 0) (fin 180)) s.currentAngle = true
  · obtain ⟨hd, -, -⟩ := h
    rw [setTarget_of_strictNe s (fin now) t hne]
    refine ⟨hd, fun _ => ⟨now, rfl, le_refl _⟩, fun hr => ?_⟩
    simp only [Servo.anglesInRange, Bool.and_eq_true] at hr
    obtain ⟨c, hc, -⟩ := inRange_finite _ hr.1.1
    obtain ⟨q, hq, -⟩ := inRange_finite _ hr.2
    simp only [Servo.noOvershoot, hc, hq, isBetween_fin]
    exact ⟨min_le_left _ _, le_max_left _ _⟩
  · have heq : strictEq (constrain t (fin 0) (fin 180)) s.currentAngle = true := by
      simpa [strictNe] using hne
    rw [setTarget_of_strictEq s (fin now) t heq]
    exact segmentInv_mono h hlo

theorem segmentInv_update {s : Servo} {lo : ℚ} (h : SegmentInv s lo) (now : ℚ)
    (hlo : lo ≤ now) : SegmentInv (s.update (fin now)) now := by
  by_cases hmv : s.isMoving = true
  · obtain ⟨⟨d, hd, hd0⟩, hm, -⟩ := h
    obtain ⟨t0, ht0, ht0lo⟩ := hm hmv
    have hseg := update_segment s (fin now)
    refine ⟨⟨d, by rw [hseg.1, hd], hd0⟩,
      fun _ => ⟨t0, by rw [hseg.2.1, ht0], le_trans ht0lo hlo⟩, fun hr => ?_⟩
    simp only [Servo.anglesInRange, Bool.and_eq_true, hseg.2.2, update_targetAngle] at hr
    obtain ⟨sa, hsa, -⟩ := inRange_finite _ hr.1.2
    obtain ⟨ta, hta, -⟩ := inRange_finite _ hr.2
    have hcur := update_currentAngle_fin s sa ta t0 d now hd0 hmv hd ht0 hsa hta
    have hp0 : 0 ≤ Min.min ((now - t0) / d) 1 :=
      le_min (div_nonneg (by linarith) (le_of_lt hd0)) (by norm_num)
    have hp1 : Min.min ((now - t0) / d) 1 ≤ 1 := min_le_right _ _
    simp only [Servo.noOvershoot, hcur, hseg.2.2, update_targetAngle, hsa, hta,
      isBetween_fin]
    exact lerp_between sa ta _ hp0 hp1
  · have hs : s.update (fin now) = s := by simp [Servo.update, hmv]
    rw [hs]
    exact segmentInv_mono h hlo

theorem segmentInv_run (calls : List (ℚ × Call)) :
    ∀ (s : Servo) (lo : ℚ), SegmentInv s lo → (∀ c ∈ calls, lo ≤ c.1) →
      nonDecreasing calls → ∃ hi, SegmentInv (s.run calls) hi := by
  induction calls with
  | nil => intro s lo h _ _; exact ⟨lo, h⟩
  | cons c rest ih =>
      intro s lo h hlo hsorted
      have hc : lo ≤ c.1 := hlo c (List.mem_cons_self _ _)
      have hstep : SegmentInv (s.step c) c.1 := by
        unfold Servo.step
        cases c.2 with
        | setTarget t => exact segmentInv_setTarget h c.1 hc t
        | update => exact segmentInv_update h c.1 hc
      have hp := List.pairwise_cons.mp hsorted
      exact ih (s.step c) c.1 hstep (fun x hx => hp.1 x hx) hp.2

/-- In a state reached from a constructor call with a move time above 0 by calls
made at non-decreasing times, angles that all lie in `[0,180]` have `currentAngle`
between the two others. -/
theorem noOvershoot_of_run (startAngle : JsNum) (d : ℚ) (hd : 0 < d)
    (calls : List (ℚ × Call)) (hsorted : nonDecreasing calls)
    (hr : ((Servo.constructor startAngle (fin d)).run calls).anglesInRange = true) :
    ((Servo.constructor startAngle (fin d)).run calls).noOvershoot = true := by
  have hinit : ∀ lo : ℚ, SegmentInv (Servo.constructor startAngle (fin d)) lo := by
    intro lo
    refine ⟨⟨d, rfl, hd⟩, fun h => by simp [Servo.constructor] at h, fun h => ?_⟩
    simp only [Servo.anglesInRange, Servo.constructor, Bool.and_eq_true] at h
    obtain ⟨a, ha, -⟩ := inRange_finite _ h.2
    simp only [Servo.noOvershoot, Servo.constructor, ha, isBetween_fin]
    exact ⟨min_le_left _ _, le_max_left _ _⟩
  cases hk : calls with
  | nil => exact (hinit 0).2.2 (by rw [hk] at hr; exact hr)
  | cons c rest =>
      rw [hk] at hsorted hr
      have hlo : ∀ x ∈ c :: rest, c.1 ≤ x.1 := by
        intro x hx
        rcases List.mem_cons.mp hx with h | h
        · rw [h]
        · exact (List.pairwise_cons.mp hsorted).1 x h
      obtain ⟨hi, hinv⟩ := segmentInv_run (c :: rest) _ c.1 (hinit c.1) hlo hsorted
      exact hinv.2.2 hr

/-- C24, as stated, fails, in states reached from the constructor. A servo built
with `new Servo(90, -1000)`, asked for 100 at the time 0 and updated at the time
1000 has `currentAngle` 80, `moveStartAngle` 90 and `targetAngle` 100, all in
`[0,180]`; `setTarget(80)` changes nothing there, and `currentAngle` is not between
the two others after it. A servo just built with `new Servo(90, 1000)` has its three
angles in `[0,180]`, and `setTarget(NaN)` stores `NaN` as its target. -/
theorem C24_counterexample :
    (Servo.constructor (fin 90) (fin (-1000))).run
        [(0, Call.setTarget (fin 100)), (1000, Call.update)]
      = ⟨fin 80, fin 100, fin (-1000), fin 0, fin 90, true⟩ ∧
    Servo.anglesInRange ⟨fin 80, fin 100, fin (-1000), fin 0, fin 90, true⟩ = true ∧
    Servo.noOvershoot (Servo.setTarget ⟨fin 80, fin 100, fin (-1000), fin 0, fin 90, true⟩
      (fin 2000) (fin 80)) = false ∧
    Servo.anglesInRange ((Servo.constructor (fin 90) (fin 1000)).run []) = true ∧
    Servo.anglesInRange (Servo.setTarget ((Servo.constructor (fin 90) (fin 1000)).run [])
      (fin 0) nan) = false := by
  refine ⟨?_, ?_, ?_, ?_, ?_⟩
  · simp [Servo.run, Servo.step, Servo.update, Servo.setTarget, Servo.constructor,
      constrain, mathMin, mathMax, JsNum.le, strictNe, strictEq, min, lerp, JsNum.div,
      JsNum.sub, JsNum.add, JsNum.neg, JsNum.mul, ge]
    norm_num
  · simp [Servo.anglesInRange, inRange, JsNum.le]
    norm_num
  · simp [Servo.noOvershoot, isBetween, Servo.setTarget, constrain, mathMin, mathMax,
      JsNum.le, strictNe, strictEq]
    norm_num
  · simp [Servo.anglesInRange, inRange, Servo.run, Servo.constructor, JsNum.le]
    norm_num
  · simp [Servo.anglesInRange, inRange, Servo.run, Servo.setTarget, Servo.constructor,
      constrain, mathMin, mathMax, JsNum.le, strictNe, strictEq]

/-- C24 (amended): let `s` be a state reached from the constructor by `setTarget` and
`update` calls, with its three angles in `[0,180]`. After `setTarget(t)` for every
`t` other than `NaN` the three angles still lie in `[0,180]`, and `currentAngle` lies
between `moveStartAngle` and `targetAngle` exactly when the call starts a movement
(the clamped `t` differs from `currentAngle`) or it lay between them before the
call. After `update` at every time not earlier than `moveStartTime`, when
`moveSpeed` is above 0, the three angles still lie in `[0,180]` and `currentAngle`
lies between `moveStartAngle` and `targetAngle`. If the servo was constructed with
a move time above 0 and the calls were made at non-decreasing times, `currentAngle`
lies between the two others in `s` already. -/
theorem C24_bounds_no_overshoot (startAngle moveSpeed : JsNum) (calls : List (ℚ × Call))
    (s : Servo) (hs : s = (Servo.constructor startAngle moveSpeed).run calls)
    (hr : s.anglesInRange = true) :
    (∀ now t : JsNum, t ≠ nan →
      (s.setTarget now t).anglesInRange = true ∧
      ((s.setTarget now t).noOvershoot = true ↔
        (strictNe (constrain t (fin 0) (fin 180)) s.currentAngle = true ∨
          s.noOvershoot = true))) ∧
    (∀ d t0 now : ℚ, s.moveSpeed = fin d → 0 < d → s.moveStartTime = fin t0 → t0 ≤ now →
      (s.update (fin now)).anglesInRange = true ∧
      (s.update (fin now)).noOvershoot = true) ∧
    (∀ d : ℚ, moveSpeed = fin d → 0 < d → nonDecreasing calls → s.noOvershoot = true) := by
  refine ⟨fun now t ht => setTarget_bounds s hr now t ht, ?_, ?_⟩
  · intro d t0 now hd hd0 ht0 hnow
    have hrest : s.isMoving = false → s.currentAngle = s.targetAngle := by
      rw [hs]
      exact rest_at_target_run calls (Servo.constructor startAngle moveSpeed) (fun _ => rfl)
    exact update_bounds s hr hrest d t0 now hd hd0 ht0 hnow
  · intro d hd hd0 hsorted
    subst hs
    subst hd
    exact noOvershoot_of_run startAngle d hd0 calls hsorted hr

/-- Witness for C24: a servo built at 90 with a move time of 1000 ms, asked for 180
at the time 0 and updated at the time 500, is at 135; it is then asked for 200 at the
time 600, or updated at the time 700. -/
theorem C24_bounds_no_overshoot_witness :
    ((Servo.setTarget ⟨fin 135, fin 180, fin 1000, fin 0, fin 90, true⟩ (fin 600)
        (fin 200)).anglesInRange = true ∧
      ((Servo.setTarget ⟨fin 135, fin 180, fin 1000, fin 0, fin 90, true⟩ (fin 600)
          (fin 200)).noOvershoot = true ↔
        (strictNe (constrain (fin 200) (fin 0) (fin 180)) (fin 135) = true ∨
          Servo.noOvershoot ⟨fin 135, fin 180, fin 1000, fin 0, fin 90, true⟩ = true))) ∧
    ((Servo.update ⟨fin 135, fin 180, fin 1000, fin 0, fin 90, true⟩
        (fin 700)).anglesInRange = true ∧
      (Servo.update ⟨fin 135, fin 180, fin 1000, fin 0, fin 90, true⟩
        (fin 700)).noOvershoot = true) ∧
    Servo.noOvershoot ⟨fin 135, fin 180, fin 1000, fin 0, fin 90, true⟩ = true :=
  have h := C24_bounds_no_overshoot (fin 90) (fin 1000)
    [(0, Call.setTarget (fin 180)), (500, Call.update)]
    ⟨fin 135, fin 180, fin 1000, fin 0, fin 90, true⟩
    (by
      simp [Servo.run, Servo.step, Servo.update, Servo.setTarget, Servo.constructor,
        constrain, mathMin, mathMax, JsNum.le, strictNe, strictEq, min, lerp, JsNum.div,
        JsNum.sub, JsNum.add, JsNum.neg, JsNum.mul, ge]
      norm_num)
    (by simp [Servo.anglesInRange, inRange, JsNum.le]; norm_num)
  ⟨h.1 (fin 600) (fin 200) (by simp),
    h.2.1 1000 0 700 rfl (by norm_num) rfl (by norm_num),
    h.2.2 1000 rfl (by norm_num) (by simp [nonDecreasing])⟩

end WebSerial

namespace WebSerial

open JsNum

/-! ## The line of the wave sketch -/

/-- The fraction 175/2 in lowest terms. -/
theorem den_num_175_2 : ((175 : ℚ) / 2).den = 2 ∧ ((175 : ℚ) / 2).num = 175 := by
  have hd := Rat.den_div_eq_of_coprime (a := 175) (b := 2) (by norm_num) (by decide)
  have hn := Rat.num_div_eq_of_coprime (a := 175) (b := 2) (by norm_num) (by decide)
  have hc : (((175 : ℤ) : ℚ) / ((2 : ℤ) : ℚ)) = (175 : ℚ) / 2 := by norm_num
  rw [hc] at hd hn
  exact ⟨by exact_mod_cast hd, hn⟩

/-- The text of 87.5 is `87.5`. -/
theorem numberToString_87_5 : numberToString (fin (175 / 2)) = some "87.5" := by
  simp only [numberToString, fractionToString, den_num_175_2.1, den_num_175_2.2]
  decide

/-- With whatever finite value `sin` takes, a non-zero `speedMS` and limits that are
natural numbers `lo <= hi <= 180`, `getWaveAngle` returns a natural number up to
180. -/
theorem getWaveAngle_nat (sin : JsNum → JsNum) (hsin : ∀ x : ℚ, ∃ y : ℚ, sin (fin x) = fin y)
    (millis speedMS centerAngle : ℚ) (lo hi : ℕ) (hs : speedMS ≠ 0) (hle : lo ≤ hi)
    (hhi : hi ≤ 180) :
    ∃ n : ℕ, n ≤ 180 ∧ ServoWiggle.getWaveAngle sin (fin millis) (fin speedMS) (fin (lo : ℚ))
        (fin (hi : ℚ)) (fin centerAngle) = fin (n : ℚ) := by
  obtain ⟨y, hy⟩ := hsin (360 * (millis / speedMS))
  have h2 : (2 : ℚ) ≠ 0 := by norm_num
  have hleq : (lo : ℚ) ≤ hi := by exact_mod_cast hle
  have hhiq : (hi : ℚ) ≤ 180 := by exact_mod_cast hhi
  have hval : ServoWiggle.getWaveAngle sin (fin millis) (fin speedMS) (fin (lo : ℚ))
      (fin (hi : ℚ)) (fin centerAngle)
      = round (fin (Max.max (Min.min (y * ((hi - lo) / 2) + centerAngle) hi) lo)) := by
    simp only [ServoWiggle.getWaveAngle, JsNum.div_fin _ _ hs, JsNum.mul_fin, hy,
      JsNum.sub_fin, JsNum.div_fin _ _ h2, JsNum.add_fin, constrain_fin_fin]
  obtain ⟨bl, bu⟩ := constrain_fin_bounds (y * (((hi : ℚ) - lo) / 2) + centerAngle) lo hi hleq
  obtain ⟨n, hn, hr⟩ := round_fin_nat _ 180
    (le_trans (by exact_mod_cast Nat.zero_le lo) bl) (le_trans bu (by exact_mod_cast hhiq))
  exact ⟨n, hn, by rw [hval, hr]⟩

/-- The centre that `setup` computes from two natural limits whose sum is `2 * c`. -/
theorem centre_of_even_sum (lo hi c : ℕ) (h : lo + hi = 2 * c) :
    div (add (fin (lo : ℚ)) (fin (hi : ℚ))) (fin 2) = fin (c : ℚ) := by
  have h2 : (2 : ℚ) ≠ 0 := by norm_num
  rw [JsNum.add_fin, JsNum.div_fin _ _ h2]
  congr 1
  have hq : (lo : ℚ) + hi = 2 * c := by exact_mod_cast h
  rw [hq]
  field_simp

/-- In the wave sketch, when the limits of both servos are natural numbers
`min <= max <= 180` whose sum is even, the two values of the line written in a tick
are natural numbers up to 180, for either side of the mouse. -/
theorem servoWiggle_line_even_sums (sin : JsNum → JsNum)
    (hsin : ∀ x : ℚ, ∃ y : ℚ, sin (fin x) = fin y)
    (waveSpeed1 waveSpeed2 mouseX width millis : ℚ) (min1 max1 c1 min2 max2 c2 : ℕ)
    (hw1 : waveSpeed1 ≠ 0) (hw2 : waveSpeed2 ≠ 0)
    (h1 : min1 ≤ max1) (h1u : max1 ≤ 180) (h2 : min2 ≤ max2) (h2u : max2 ≤ 180)
    (hc1 : min1 + max1 = 2 * c1) (hc2 : min2 + max2 = 2 * c2) :
    ∃ n1 n2 : ℕ, n1 ≤ 180 ∧ n2 ≤ 180 ∧
      (ServoWiggle.draw sin
        (ServoWiggle.setup (fin waveSpeed1) (fin waveSpeed2) (fin (min1 : ℚ)) (fin (max1 : ℚ))
          (fin (min2 : ℚ)) (fin (max2 : ℚ)))
        true (fin mouseX) (fin width) (fin millis)).written
        = [some (Nat.repr n1 ++ "," ++ Nat.repr n2 ++ "\n")] := by
  have e1 := centre_of_even_sum min1 max1 c1 hc1
  have e2 := centre_of_even_sum min2 max2 c2 hc2
  have hc1u : c1 ≤ 180 := by omega
  have hc2u : c2 ≤ 180 := by omega
  have hline : ∀ a b : ℕ, a ≤ 180 → b ≤ 180 →
      ServoWiggle.sendDataToArduino (fin (a : ℚ)) (fin (b : ℚ))
        = some (Nat.repr a ++ "," ++ Nat.repr b ++ "\n") := by
    intro a b ha hb
    simp only [ServoWiggle.sendDataToArduino, csvLine,
      numberToString_natCast a (le_trans ha (by norm_num)),
      numberToString_natCast b (le_trans hb (by norm_num))]
  by_cases hside : JsNum.lt (fin mouseX) (div (fin width) (fin 2)) = true
  · obtain ⟨n, hn, hg⟩ := getWaveAngle_nat sin hsin millis waveSpeed1 c1 min1 max1 hw1 h1 h1u
    refine ⟨n, c2, hn, hc2u, ?_⟩
    simp only [ServoWiggle.draw, ServoWiggle.setup, if_true, hside, e1, e2, hg, hline n c2 hn hc2u]
  · obtain ⟨n, hn, hg⟩ := getWaveAngle_nat sin hsin millis waveSpeed2 c2 min2 max2 hw2 h2 h2u
    refine ⟨c1, n, hc1u, hn, ?_⟩
    simp only [ServoWiggle.draw, ServoWiggle.setup, if_true, hside, e1, e2, hg, hline c1 n hc1u hn]
    rfl

/-- C21, evaluated on the code: with the limits 45 and 130 for servo 1 (and 30 and
150 for servo 2), `setup` computes the centre 87.5 for servo 1; with the mouse on the
right half of the canvas `draw` sends that centre as it is, and the line written is
`87.5,90`: the first value is not an integer. -/
theorem C21_centre_not_rounded :
    (ServoWiggle.setup (fin 2000) (fin 2000) (fin 45) (fin 130) (fin 30) (fin 150)).servo1Center
      = fin (175 / 2) ∧
    (ServoWiggle.draw ServoWiggle.sinAtZero
      (ServoWiggle.setup (fin 2000) (fin 2000) (fin 45) (fin 130) (fin 30) (fin 150))
      true (fin 400) (fin 640) (fin 0)).written = [some "87.5,90\n"] := by
  have h2 : (2 : ℚ) ≠ 0 := by norm_num
  have h2000 : (2000 : ℚ) ≠ 0 := by norm_num
  have hc1 : div (add (fin 45) (fin 130)) (fin 2) = fin (175 / 2) := by
    rw [JsNum.add_fin, JsNum.div_fin _ _ h2]; norm_num
  have hc2 : div (add (fin 30) (fin 150)) (fin 2) = fin 90 := by
    rw [JsNum.add_fin, JsNum.div_fin _ _ h2]; norm_num
  have hside : JsNum.lt (fin 400) (div (fin 640) (fin 2)) = false := by
    rw [JsNum.div_fin _ _ h2]
    simp [JsNum.lt]
    norm_num
  have hwave : ServoWiggle.getWaveAngle ServoWiggle.sinAtZero (fin 0) (fin 2000) (fin 30)
      (fin 150) (fin 90) = fin 90 := by
    have hr := round_fin_intCast 90
    push_cast at hr
    have hsin : ServoWiggle.sinAtZero (fin (360 * (0 / 2000))) = fin 0 := by
      simp [ServoWiggle.sinAtZero]
    simp only [ServoWiggle.getWaveAngle, JsNum.div_fin _ _ h2000, JsNum.mul_fin,
      hsin, JsNum.sub_fin, JsNum.div_fin _ _ h2, JsNum.add_fin, constrain_fin_fin]
    norm_num
    exact hr
  have h90 : numberToString (fin 90) = some "90" := by decide
  refine ⟨by simp only [ServoWiggle.setup, hc1], ?_⟩
  simp only [ServoWiggle.draw, ServoWiggle.setup, if_true, hside, hc1, hc2, hwave,
    ServoWiggle.sendDataToArduino, csvLine, numberToString_87_5, h90]
  decide

end WebSerial
